import Mathlib

/-!
# Verification of the wheeler monthly aggregation / collateral analytics engine

Shallow embedding of the core of `prggr450gh/wheeler`
(`src/internal/web/monthly_handlers.go`, `src/internal/web/symbol_handlers.go`)
in Lean 4, together with proofs about the frozen specification claims.

Conventions of the embedding:
* Go `float64` monetary amounts are modelled as `ℚ` (exact arithmetic);
  the source performs only `+`, `*`, `/` and comparisons on them.
* Go `time.Time` values carry only year/month/day in this subsystem
  (all dates are UTC dates, compared with `time.Time.Before`, i.e. the
  lexicographic order on (year, month, day)).
* Go `"YYYY-MM"` month-key strings are modelled as (year, month) pairs;
  the source compares such zero-padded fixed-width strings with `<` / `>`,
  which coincides with the lexicographic order on (year, month).
* Go maps accumulated by iteration are modelled as finitely supported
  functions (lookup with default 0) together with explicit key lists;
  every consumer in the source either looks a key up or iterates over an
  explicitly sorted key list, so map iteration order is never observable
  except in `tableData` / ticker chart row order, where we fix the
  first-occurrence order of the contributing records (Go map iteration
  order is unspecified; no claim depends on row order).
-/

namespace Stonks

/-- A calendar date (year, month, day), as used by the Go code's `time.Time`
values in this subsystem (UTC dates only). -/
structure Date where
  year : Int
  month : Int
  day : Int
deriving DecidableEq, Repr

/-- `time.Time.Before`: strict chronological order, i.e. lexicographic order
on (year, month, day). -/
def Date.before (a b : Date) : Bool :=
  decide (a.year < b.year ∨ (a.year = b.year ∧
    (a.month < b.month ∨ (a.month = b.month ∧ a.day < b.day))))

/-- A `"YYYY-MM"` month key, modelled as the (year, month) pair. -/
structure YM where
  year : Int
  month : Int
deriving DecidableEq, Repr

/-- Go string `<` on zero-padded `"YYYY-MM"` keys: lexicographic order
on (year, month). -/
def YM.lt (a b : YM) : Bool :=
  decide (a.year < b.year ∨ (a.year = b.year ∧ a.month < b.month))

/-- `a ≤ b` on month keys (`¬ b < a`). -/
def YM.le (a b : YM) : Bool := !(YM.lt b a)

/-- `fmt.Sprintf("%04d-%02d", d.Year(), d.Month())`. -/
def monthKey (d : Date) : YM := ⟨d.year, d.month⟩

/-- `time.Date(year, month, 1, ...)`: the first day of month `ym`. -/
def firstOfMonth (ym : YM) : Date := ⟨ym.year, ym.month, 1⟩

/-- `startDate.AddDate(0, 1, 0)` for a first-of-month date: the first day of
the following month. -/
def nextMonthStart (ym : YM) : Date :=
  if ym.month = 12 then ⟨ym.year + 1, 1, 1⟩ else ⟨ym.year, ym.month + 1, 1⟩

/-- An option record (`models.Option`, table `options` in
`src/internal/database/schema.sql`). Only the fields read by the core are
modelled. The Go field `Type` is called `otype` here (`Type` is a Lean
keyword). `totalProfit` — Modelled from the spec: `CalculateTotalProfit`
lives in the models package, which is not under `src/`; the spec treats the
total profit as "a given numeric fact per record", the signed realized P&L
attributed to the option's open month. -/
structure OptionRec where
  symbol : String
  otype : String
  opened : Date
  closed : Option Date
  strike : ℚ
  contracts : Int
  totalProfit : ℚ
deriving DecidableEq, Repr

/-- A dividend record (`models.Dividend`, table `dividends`). -/
structure DividendRec where
  symbol : String
  received : Date
  amount : ℚ
deriving DecidableEq, Repr

/-- A long-position record (`models.LongPosition`, table `long_positions`).
`exitPrice` — Modelled from the spec: `GetExitPriceValue` lives in the models
package, which is not under `src/`; the spec defines a closed position's gain
as `(exit price − buy price) × shares`, so `exitPrice` is that numeric exit
price value (0 when absent). -/
structure LongPositionRec where
  symbol : String
  opened : Date
  closed : Option Date
  shares : Int
  buyPrice : ℚ
  exitPrice : ℚ
deriving DecidableEq, Repr

/-! ## Collateral Sweep Engine — `calculateMaxCollateral` -/

/-- A collateral event: `(date, signed delta)`. -/
structure Event where
  date : Date
  delta : ℚ
deriving DecidableEq, Repr

/-- Put collateral magnitude: `Strike × Contracts × 100`. -/
def optionCollateral (o : OptionRec) : ℚ := o.strike * o.contracts * 100

/-- Long-position collateral magnitude: `BuyPrice × Shares`. -/
def positionCollateral (p : LongPositionRec) : ℚ := p.buyPrice * p.shares

/-- The two `continue` guards of the options loop of `calculateMaxCollateral`:
an option takes part in the sweep for `[startD, endD)` iff it is a put,
it opened before `endD`, and it is not closed before `startD`. -/
def optionInSweep (startD endD : Date) (o : OptionRec) : Bool :=
  o.otype == "Put" && o.opened.before endD &&
    (match o.closed with
     | none => true
     | some c => !(c.before startD))

/-- The two `continue` guards of the positions loop of
`calculateMaxCollateral`. -/
def positionInSweep (startD endD : Date) (p : LongPositionRec) : Bool :=
  p.opened.before endD &&
    (match p.closed with
     | none => true
     | some c => !(c.before startD))

/-- The contribution of one option to `initialCollateral`: its collateral
magnitude when it takes part in the sweep and was opened strictly before the
month start, else 0. -/
def optionInitialContrib (startD endD : Date) (o : OptionRec) : ℚ :=
  if optionInSweep startD endD o && o.opened.before startD
  then optionCollateral o else 0

/-- The contribution of one position to `initialCollateral`. -/
def positionInitialContrib (startD endD : Date) (p : LongPositionRec) : ℚ :=
  if positionInSweep startD endD p && p.opened.before startD
  then positionCollateral p else 0

/-- The events emitted for one option, in emission order: an open event when
it opens inside the month, then a close event when it closes strictly inside
the month. -/
def optionEvents (startD endD : Date) (o : OptionRec) : List Event :=
  if optionInSweep startD endD o then
    let c := optionCollateral o
    let closeEv : List Event :=
      match o.closed with
      | none => []
      | some cd => if cd.before endD then [⟨cd, -c⟩] else []
    if o.opened.before startD then closeEv else ⟨o.opened, c⟩ :: closeEv
  else []

/-- The events emitted for one long position. -/
def positionEvents (startD endD : Date) (p : LongPositionRec) : List Event :=
  if positionInSweep startD endD p then
    let c := positionCollateral p
    let closeEv : List Event :=
      match p.closed with
      | none => []
      | some cd => if cd.before endD then [⟨cd, -c⟩] else []
    if p.opened.before startD then closeEv else ⟨p.opened, c⟩ :: closeEv
  else []

/-- `initialCollateral`: the summed contributions of records already active
at the month start. -/
def initialCollateral (startD endD : Date) (opts : List OptionRec)
    (poss : List LongPositionRec) : ℚ :=
  (opts.map (optionInitialContrib startD endD)).sum +
  (poss.map (positionInitialContrib startD endD)).sum

/-- The emitted event list, in emission order (the options loop runs before
the positions loop). -/
def sweepEvents (startD endD : Date) (opts : List OptionRec)
    (poss : List LongPositionRec) : List Event :=
  opts.flatMap (optionEvents startD endD) ++
  poss.flatMap (positionEvents startD endD)

/-- Comparison used to sort events: `!(b.date.Before(a.date))`, i.e. the
date order made reflexive. The Go code sorts with
`sort.Slice(events, events[i].date.Before(events[j].date))`, whose behavior
on same-date ties is unspecified (the sort is not guaranteed stable); we
model the sort as the stable insertion sort by date. -/
def eventLE (a b : Event) : Prop := b.date.before a.date = false

instance : DecidableRel eventLE := fun a b => by unfold eventLE; infer_instance

/-- `sort.Slice(events, ...)` by ascending date. -/
def sortEvents (l : List Event) : List Event := List.insertionSort eventLE l

/-- The sweep loop: apply each event in order, tracking the running total's
maximum (`if current > maxCollateral { maxCollateral = current }`). -/
def sweepLoop : ℚ → ℚ → List Event → ℚ
  | _, maxC, [] => maxC
  | cur, maxC, e :: es =>
      let cur' := cur + e.delta
      sweepLoop cur' (if maxC < cur' then cur' else maxC) es

/-- `calculateMaxCollateral(ym, options, positions)`
(src/internal/web/monthly_handlers.go:65-152). The Go function receives the
month as a `"YYYY-MM"` string and re-parses it with `Sscanf`; here it
receives the (year, month) pair directly. -/
def calculateMaxCollateral (ym : YM) (opts : List OptionRec)
    (poss : List LongPositionRec) : ℚ :=
  let startD := firstOfMonth ym
  let endD := nextMonthStart ym
  let init := initialCollateral startD endD opts poss
  sweepLoop init init (sortEvents (sweepEvents startD endD opts poss))

/-! ## Monthly Aggregator — `buildMonthlyData`

The Go function (src/internal/web/monthly_handlers.go:155-473) iterates each
record list once, skipping records outside the `[fromMonth, toMonth]` range
(`continue`) and accumulating into maps. We model this as filtering each list
first and then aggregating, which processes exactly the same records. -/

/-- The range filter of `buildMonthlyData`: a record with key `ym` is kept
iff not (`fromMonth != "" && yearMonth < fromMonth`) and not
(`toMonth != "" && yearMonth > toMonth`). `none` models the empty string. -/
def keepYM (fromM toM : Option YM) (ym : YM) : Bool :=
  (match fromM with
   | none => true
   | some f => !(YM.lt ym f)) &&
  (match toM with
   | none => true
   | some t => !(YM.lt t ym))

/-- Bucketed month key of an option: its open month. -/
def OptionRec.ym (o : OptionRec) : YM := monthKey o.opened

/-- Bucketed month key of a dividend: its received month. -/
def DividendRec.ym (d : DividendRec) : YM := monthKey d.received

/-- Bucketed month key of a closed long position: its close month. Only ever
applied to positions whose `closed` is `some` (the default is irrelevant). -/
def LongPositionRec.cym (p : LongPositionRec) : YM :=
  monthKey (p.closed.getD ⟨0, 0, 0⟩)

/-- Realized gain of a closed long position:
`(position.GetExitPriceValue() - position.BuyPrice) * float64(position.Shares)`. -/
def positionProfit (p : LongPositionRec) : ℚ :=
  (p.exitPrice - p.buyPrice) * p.shares

/-- Options surviving the range filter. -/
def filtOptions (fromM toM : Option YM) (opts : List OptionRec) :
    List OptionRec :=
  opts.filter (fun o => keepYM fromM toM o.ym)

/-- Dividends surviving the range filter. -/
def filtDividends (fromM toM : Option YM) (divs : List DividendRec) :
    List DividendRec :=
  divs.filter (fun d => keepYM fromM toM d.ym)

/-- Closed long positions surviving the range filter (open positions are
skipped entirely: `position.Closed != nil`). -/
def filtClosedPositions (fromM toM : Option YM)
    (poss : List LongPositionRec) : List LongPositionRec :=
  poss.filter (fun p =>
    match p.closed with
    | none => false
    | some cd => keepYM fromM toM (monthKey cd))

/-- `putsByYearMonth[ym]` over an (already filtered) option list. -/
def putsByYearMonth (opts : List OptionRec) (ym : YM) : ℚ :=
  ((opts.filter (fun o => o.otype == "Put" && o.ym == ym)).map
    (·.totalProfit)).sum

/-- `callsByYearMonth[ym]`. -/
def callsByYearMonth (opts : List OptionRec) (ym : YM) : ℚ :=
  ((opts.filter (fun o => o.otype == "Call" && o.ym == ym)).map
    (·.totalProfit)).sum

/-- `putsByTicker[t]`. -/
def putsByTicker (opts : List OptionRec) (t : String) : ℚ :=
  ((opts.filter (fun o => o.otype == "Put" && o.symbol == t)).map
    (·.totalProfit)).sum

/-- `callsByTicker[t]`. -/
def callsByTicker (opts : List OptionRec) (t : String) : ℚ :=
  ((opts.filter (fun o => o.otype == "Call" && o.symbol == t)).map
    (·.totalProfit)).sum

/-- `dividendsByYearMonth[ym]`. -/
def dividendsByYearMonth (divs : List DividendRec) (ym : YM) : ℚ :=
  ((divs.filter (fun d => d.ym == ym)).map (·.amount)).sum

/-- `dividendsByTicker[t]`. -/
def dividendsByTicker (divs : List DividendRec) (t : String) : ℚ :=
  ((divs.filter (fun d => d.symbol == t)).map (·.amount)).sum

/-- `capGainsByYearMonth[ym]` over the (filtered) closed positions. -/
def capGainsByYearMonth (poss : List LongPositionRec) (ym : YM) : ℚ :=
  ((poss.filter (fun p => p.cym == ym)).map positionProfit).sum

/-- `capGainsByTicker[t]`. -/
def capGainsByTicker (poss : List LongPositionRec) (t : String) : ℚ :=
  ((poss.filter (fun p => p.symbol == t)).map positionProfit).sum

/-- One cell `tickerMonthData[t][ym]` of the ticker×month matrix: option
profits (of every option type) + dividends + realized gains attributed to
`(t, ym)`. -/
def tickerMonthCell (opts : List OptionRec) (divs : List DividendRec)
    (poss : List LongPositionRec) (t : String) (ym : YM) : ℚ :=
  ((opts.filter (fun o => o.symbol == t && o.ym == ym)).map
    (·.totalProfit)).sum +
  ((divs.filter (fun d => d.symbol == t && d.ym == ym)).map (·.amount)).sum +
  ((poss.filter (fun p => p.symbol == t && p.cym == ym)).map
    positionProfit).sum

/-- The month keys inserted into `yearMonthSet`, with multiplicity, in
processing order (options, dividends, closed positions). -/
def monthKeysList (opts : List OptionRec) (divs : List DividendRec)
    (poss : List LongPositionRec) : List YM :=
  opts.map (·.ym) ++ divs.map (·.ym) ++ poss.map (·.cym)

/-- `≤` on month keys as a binary relation for sorting. -/
def ymLE (a b : YM) : Prop := YM.lt b a = false

instance : DecidableRel ymLE := fun a b => by unfold ymLE; infer_instance

/-- `yearMonths`: the distinct observed month keys, sorted ascending
(`sort.Strings`). -/
def yearMonths (opts : List OptionRec) (divs : List DividendRec)
    (poss : List LongPositionRec) : List YM :=
  List.insertionSort ymLE (monthKeysList opts divs poss).dedup

/-- The key set of the `tickerMonthData` map: each contributing record's
ticker, first occurrence first (Go map iteration order is unspecified; no
claim depends on row order). -/
def tickersList (opts : List OptionRec) (divs : List DividendRec)
    (poss : List LongPositionRec) : List String :=
  (opts.map (·.symbol) ++ divs.map (·.symbol) ++ poss.map (·.symbol)).dedup

/-- The key set of the row map `tickerMonthData[t]`: the distinct months
touched by ticker `t`'s records. -/
def tickerMonths (opts : List OptionRec) (divs : List DividendRec)
    (poss : List LongPositionRec) (t : String) : List YM :=
  ((opts.filter (fun o => o.symbol == t)).map (·.ym) ++
   (divs.filter (fun d => d.symbol == t)).map (·.ym) ++
   (poss.filter (fun p => p.symbol == t)).map (·.cym)).dedup

/-- A table row's `Total`: the sum of the row map's values. -/
def rowTotal (opts : List OptionRec) (divs : List DividendRec)
    (poss : List LongPositionRec) (t : String) : ℚ :=
  ((tickerMonths opts divs poss t).map
    (tickerMonthCell opts divs poss t)).sum

/-- `grandTotal`: every cell of `tickerMonthData`, summed. -/
def grandTotalOf (opts : List OptionRec) (divs : List DividendRec)
    (poss : List LongPositionRec) : ℚ :=
  ((tickersList opts divs poss).map (rowTotal opts divs poss)).sum

/-- The APR computation of `buildMonthlyData` (lines 420-423): zero unless
`maxCollateral > 0`. -/
def aprValue (premium mc : ℚ) : ℚ :=
  if 0 < mc then premium / mc * 12 * 100 else 0

/-- `MonthlyChartData`. -/
structure MonthlyChartData where
  month : YM
  amount : ℚ
deriving DecidableEq, Repr

/-- `TickerChartData`. -/
structure TickerChartData where
  ticker : String
  amount : ℚ
deriving DecidableEq, Repr

/-- `MonthlyTableRow` (the `MonthValues` row map is recoverable as
`tickerMonthCell · · · ticker`; we keep the ticker and its total). -/
structure MonthlyTableRow where
  ticker : String
  total : ℚ
deriving DecidableEq, Repr

/-- `MonthlyTotal`. -/
structure MonthlyTotal where
  month : YM
  amount : ℚ
deriving DecidableEq, Repr

/-- The fields of `MonthlyData` computed by `buildMonthlyData` (presentation
pass-throughs such as `Symbols`, `OptionsIndexJSON`, `CurrentDB` are
omitted). -/
structure MonthlyData where
  putsByMonth : List MonthlyChartData
  callsByMonth : List MonthlyChartData
  capGainsByMonth : List MonthlyChartData
  dividendsByMonth : List MonthlyChartData
  putsTickerChart : List TickerChartData
  callsTickerChart : List TickerChartData
  capGainsTickerChart : List TickerChartData
  dividendsTickerChart : List TickerChartData
  tableData : List MonthlyTableRow
  tableYearMonths : List YM
  totalsByMonth : List MonthlyTotal
  collateralByMonth : List MonthlyChartData
  aprByMonth : List MonthlyChartData
  grandTotal : ℚ
deriving DecidableEq, Repr

/-- `buildMonthlyData` (src/internal/web/monthly_handlers.go:155-473).
Note that the collateral / APR series invoke `calculateMaxCollateral` with
the UNFILTERED `options` and `longPositions` lists (line 418), while every
other series is built from range-filtered records. The ticker charts iterate
the per-ticker maps keeping nonzero amounts; a ticker absent from a map has
amount 0 and is dropped by the same test, so iterating `tickersList` is
equivalent up to row order. -/
def buildMonthlyData (opts : List OptionRec) (divs : List DividendRec)
    (poss : List LongPositionRec) (fromM toM : Option YM) : MonthlyData :=
  let fo := filtOptions fromM toM opts
  let fd := filtDividends fromM toM divs
  let fp := filtClosedPositions fromM toM poss
  let yms := yearMonths fo fd fp
  let ts := tickersList fo fd fp
  { putsByMonth := yms.map (fun ym => ⟨ym, putsByYearMonth fo ym⟩)
    callsByMonth := yms.map (fun ym => ⟨ym, callsByYearMonth fo ym⟩)
    capGainsByMonth := yms.map (fun ym => ⟨ym, capGainsByYearMonth fp ym⟩)
    dividendsByMonth := yms.map (fun ym => ⟨ym, dividendsByYearMonth fd ym⟩)
    putsTickerChart := (ts.filter (fun t => !(putsByTicker fo t == 0))).map
      (fun t => ⟨t, putsByTicker fo t⟩)
    callsTickerChart := (ts.filter (fun t => !(callsByTicker fo t == 0))).map
      (fun t => ⟨t, callsByTicker fo t⟩)
    capGainsTickerChart :=
      (ts.filter (fun t => !(capGainsByTicker fp t == 0))).map
        (fun t => ⟨t, capGainsByTicker fp t⟩)
    dividendsTickerChart :=
      (ts.filter (fun t => !(dividendsByTicker fd t == 0))).map
        (fun t => ⟨t, dividendsByTicker fd t⟩)
    tableData := (ts.filter (fun t => !(rowTotal fo fd fp t == 0))).map
      (fun t => ⟨t, rowTotal fo fd fp t⟩)
    tableYearMonths := yms
    totalsByMonth := yms.map (fun ym =>
      ⟨ym, putsByYearMonth fo ym + callsByYearMonth fo ym +
        capGainsByYearMonth fp ym + dividendsByYearMonth fd ym⟩)
    collateralByMonth := yms.map (fun ym =>
      ⟨ym, calculateMaxCollateral ym opts poss⟩)
    aprByMonth := yms.map (fun ym =>
      ⟨ym, aprValue (putsByYearMonth fo ym + callsByYearMonth fo ym)
        (calculateMaxCollateral ym opts poss)⟩)
    grandTotal := grandTotalOf fo fd fp }

/-! ## Symbol-Scoped Month Aggregator — `buildSymbolMonthlyResults` -/

/-- `SymbolMonthlyResult`. -/
structure SymbolMonthlyResult where
  month : String
  putsCount : Nat
  callsCount : Nat
  putsTotal : ℚ
  callsTotal : ℚ
  total : ℚ
deriving DecidableEq, Repr

/-- The twelve calendar month names, in order. -/
def monthNames : List String :=
  ["January", "February", "March", "April", "May", "June",
   "July", "August", "September", "October", "November", "December"]

/-- The bucket for calendar month `i + 1` (0-based index `i`). The Go code
keys its map by month NAME via `months[option.Opened.Month()-1]`; the twelve
names are pairwise distinct, so grouping by name equals grouping by month
number. `Type == "Put"` counts as a put; every other type takes the `else`
branch and counts as a call. `Total` is reassigned on every iteration to
`PutsTotal + CallsTotal`, so its final value is their final sum (0 for an
untouched bucket). -/
def symbolMonthBucket (opts : List OptionRec) (i : Nat) : SymbolMonthlyResult :=
  let sel := opts.filter (fun o => o.opened.month == (i : Int) + 1)
  let puts := sel.filter (fun o => o.otype == "Put")
  let calls := sel.filter (fun o => !(o.otype == "Put"))
  { month := monthNames.getD i ""
    putsCount := puts.length
    callsCount := calls.length
    putsTotal := (puts.map (·.totalProfit)).sum
    callsTotal := (calls.map (·.totalProfit)).sum
    total := (puts.map (·.totalProfit)).sum + (calls.map (·.totalProfit)).sum }

/-- `buildSymbolMonthlyResults` (src/internal/web/symbol_handlers.go:238-297):
all twelve buckets, in calendar order. -/
def buildSymbolMonthlyResults (opts : List OptionRec) :
    List SymbolMonthlyResult :=
  (List.range 12).map (symbolMonthBucket opts)

/-! ## `monthlyHandler` default month range -/

/-- Gregorian leap year (`time` package rules). -/
def isLeap (y : Int) : Bool := (y % 4 == 0 && y % 100 != 0) || y % 400 == 0

/-- Days in a calendar month. -/
def daysInMonth (y m : Int) : Int :=
  if m = 2 then (if isLeap y then 29 else 28)
  else if m = 4 ∨ m = 6 ∨ m = 9 ∨ m = 11 then 30 else 31

/-- Go `t.AddDate(0, k, 0)`: add `k` months keeping the day-of-month, then
normalize (`time.Date` semantics). Month overflow is folded into the year;
if the day-of-month exceeds the target month's length, the date rolls
forward into the following month. For source dates (day ≤ 31) a single
day carry suffices, since every month has at least 28 days. -/
def addMonths (d : Date) (k : Int) : Date :=
  let t := d.month + k - 1
  let y := d.year + t.ediv 12
  let m := t.emod 12 + 1
  let dim := daysInMonth y m
  if dim < d.day then
    (if m = 12 then ⟨y + 1, 1, d.day - dim⟩ else ⟨y, m + 1, d.day - dim⟩)
  else ⟨y, m, d.day⟩

/-- The query-parameter handling of `monthlyHandler`
(src/internal/web/monthly_handlers.go:16-26): if EITHER bound is missing
(`fromMonth == "" || toMonth == ""`), BOTH are replaced by the default
window `[month(now.AddDate(0,-11,0)), month(now)]`. Returns
`(fromMonth, toMonth)`. -/
def monthlyHandlerRange (qFrom qTo : Option YM) (now : Date) :
    Option YM × Option YM :=
  if qFrom = none ∨ qTo = none then
    (some (monthKey (addMonths now (-11))), some (monthKey now))
  else (qFrom, qTo)

/-- A linear index on month keys: consecutive calendar months differ by 1. -/
def ymIndex (ym : YM) : Int := 12 * ym.year + ym.month

/-- A valid calendar date. -/
def validDate (d : Date) : Prop :=
  1 ≤ d.month ∧ d.month ≤ 12 ∧ 1 ≤ d.day ∧ d.day ≤ daysInMonth d.year d.month

/-! ## Concrete records used by the claim theorems -/

/-- The put option of the spec's concrete scenario: `XYZ`, strike 100,
2 contracts, opened 2024-01-10, closed 2024-01-25, total profit 500. -/
def c7xyzPut : OptionRec :=
  { symbol := "XYZ", otype := "Put", opened := ⟨2024, 1, 10⟩,
    closed := some ⟨2024, 1, 25⟩, strike := 100, contracts := 2,
    totalProfit := 500 }

/-- The spec's activity condition, following the spec's words: the record's
active interval `[open, close_or_∞)` intersects `[monthStart, monthEnd)`,
i.e. `open < monthEnd` and (still open, or `monthStart < close`). Stated
from the spec for comparison against the code's guards. -/
def specActiveIntervalIntersects (startD endD opened : Date)
    (closed : Option Date) : Bool :=
  opened.before endD &&
    (match closed with
     | none => true
     | some c => startD.before c)

/-- A put closed exactly on the first of 2024-01: its active interval
`[2023-12-01, 2024-01-01)` does NOT intersect `[2024-01-01, 2024-02-01)`. -/
def c2boundaryPut : OptionRec :=
  { symbol := "Q", otype := "Put", opened := ⟨2023, 12, 1⟩,
    closed := some ⟨2024, 1, 1⟩, strike := 100, contracts := 1,
    totalProfit := 0 }

/-- A put with a negative strike (the Go `strike REAL` column admits it). -/
def c6negPut : OptionRec :=
  { symbol := "N", otype := "Put", opened := ⟨2023, 12, 1⟩, closed := none,
    strike := -100, contracts := 2, totalProfit := 0 }

/-- A dividend used to exhibit a month with zero collateral. -/
def c4dividend : DividendRec :=
  { symbol := "B", received := ⟨2024, 2, 3⟩, amount := 10 }

/-- Two puts on the same symbol opened in March of different years. -/
def c9putMarch2023 : OptionRec :=
  { symbol := "S", otype := "Put", opened := ⟨2023, 3, 7⟩, closed := none,
    strike := 10, contracts := 1, totalProfit := 10 }

/-- See `c9putMarch2023`. -/
def c9putMarch2024 : OptionRec :=
  { symbol := "S", otype := "Put", opened := ⟨2024, 3, 9⟩, closed := none,
    strike := 10, contracts := 1, totalProfit := 20 }

/-- C1 counterexample data: two puts on ticker `A` whose profits cancel
across two months (+5 in 2024-01, −5 in 2024-02). -/
def c1putJan : OptionRec :=
  { symbol := "A", otype := "Put", opened := ⟨2024, 1, 3⟩, closed := none,
    strike := 1, contracts := 1, totalProfit := 5 }

/-- See `c1putJan`. -/
def c1putFeb : OptionRec :=
  { symbol := "A", otype := "Put", opened := ⟨2024, 2, 3⟩, closed := none,
    strike := 1, contracts := 1, totalProfit := -5 }

/-- C1 counterexample data: a dividend on ticker `B` in 2024-01. -/
def c1dividend : DividendRec :=
  { symbol := "B", received := ⟨2024, 1, 15⟩, amount := 7 }

/-- C3 counterexample data: a put opened in 2023-05 (before the filter
window) and still open, so it overlaps months inside the window. -/
def c3oldPut : OptionRec :=
  { symbol := "A", otype := "Put", opened := ⟨2023, 5, 10⟩, closed := none,
    strike := 100, contracts := 1, totalProfit := 0 }

/-- C3 counterexample data: a dividend inside the filter window, making
2024-01 an observed month. -/
def c3dividend : DividendRec :=
  { symbol := "B", received := ⟨2024, 1, 15⟩, amount := 1 }

/-- C5 counterexample data: a put opened 2024-01-05 and closed 2024-01-10,
collateral 100. -/
def c5optA : OptionRec :=
  { symbol := "A", otype := "Put", opened := ⟨2024, 1, 5⟩,
    closed := some ⟨2024, 1, 10⟩, strike := 1, contracts := 1,
    totalProfit := 0 }

/-- C5 counterexample data: a put opened 2024-01-10, still open,
collateral 100 — its open event shares the date of `c5optA`'s close event. -/
def c5optB : OptionRec :=
  { symbol := "B", otype := "Put", opened := ⟨2024, 1, 10⟩, closed := none,
    strike := 1, contracts := 1, totalProfit := 0 }

/-- C5 witness data: a put opened 2024-01-15 and closed 2024-01-20; its
event dates are disjoint from `c5optA`'s. -/
def c5optC : OptionRec :=
  { symbol := "C", otype := "Put", opened := ⟨2024, 1, 15⟩,
    closed := some ⟨2024, 1, 20⟩, strike := 1, contracts := 1,
    totalProfit := 0 }

/-- C3 witness data: a dividend received before the filter window. -/
def c3oldDividend : DividendRec :=
  { symbol := "B", received := ⟨2023, 6, 1⟩, amount := 2 }

/-- C3 witness data: a long position closed before the filter window. -/
def c3oldPosition : LongPositionRec :=
  { symbol := "L", opened := ⟨2023, 2, 1⟩, closed := some ⟨2023, 7, 1⟩,
    shares := 10, buyPrice := 5, exitPrice := 6 }

/-- C10 counterexample data: an option whose `Type` is neither `"Put"` nor
`"Call"`. -/
def c10weirdOption : OptionRec :=
  { symbol := "A", otype := "X", opened := ⟨2024, 3, 5⟩, closed := none,
    strike := 1, contracts := 1, totalProfit := 7 }

/-! ## Order facts about dates and month keys -/

theorem Date.before_trans {a b c : Date} (h1 : a.before b = true)
    (h2 : b.before c = true) : a.before c = true := by
  cases a; cases b; cases c
  simp only [Date.before, decide_eq_true_eq] at h1 h2 ⊢
  omega

theorem Date.before_asymm {a b : Date} (h : a.before b = true) :
    b.before a = false := by
  cases a; cases b
  simp only [Date.before, decide_eq_true_eq, decide_eq_false_iff_not] at h ⊢
  omega

theorem Date.eq_of_before_eq_false {a b : Date} (h1 : a.before b = false)
    (h2 : b.before a = false) : a = b := by
  cases a; cases b
  simp only [Date.before, decide_eq_false_iff_not, Date.mk.injEq] at h1 h2 ⊢
  omega

theorem Date.before_eq_false_iff {a b : Date} :
    a.before b = false ↔ (b.before a = true ∨ a = b) := by
  cases a; cases b
  simp only [Date.before, decide_eq_false_iff_not, decide_eq_true_eq,
    Date.mk.injEq]
  omega

instance : IsTrans Event eventLE where
  trans a b c hab hbc := by
    unfold eventLE at *
    rcases Date.before_eq_false_iff.mp hab with h1 | h1 <;>
      rcases Date.before_eq_false_iff.mp hbc with h2 | h2
    · exact Date.before_asymm (Date.before_trans h1 h2)
    · rw [h2]; exact hab
    · rw [h1] at hbc; exact hbc
    · rw [h2]; exact hab

instance : IsTotal Event eventLE where
  total a b := by
    unfold eventLE
    rcases hc : b.date.before a.date with _ | _
    · exact Or.inl rfl
    · exact Or.inr (Date.before_asymm hc)

theorem YM.lt_irrefl (a : YM) : YM.lt a a = false := by
  simp only [YM.lt, decide_eq_false_iff_not]
  omega

theorem YM.not_lt_of_le {a b : YM} (h : YM.le a b = true) :
    YM.lt b a = false := by
  simpa [YM.le] using h

/-! ## Sum helper lemmas -/

theorem sum_map_add {α : Type} (l : List α) (f g : α → ℚ) :
    (l.map (fun x => f x + g x)).sum = (l.map f).sum + (l.map g).sum := by
  induction l with
  | nil => simp
  | cons x xs ih => simp only [List.map_cons, List.sum_cons, ih]; ring

theorem sum_indicator {κ : Type} [DecidableEq κ] (k : κ) (c : ℚ) :
    ∀ ks : List κ, k ∈ ks → ks.Nodup →
      (ks.map (fun x => if k = x then c else 0)).sum = c := by
  intro ks
  induction ks with
  | nil => intro h; exact absurd h (List.not_mem_nil k)
  | cons a t ih =>
    intro hk hn
    rcases List.mem_cons.mp hk with rfl | hkt
    · have hz : (t.map (fun x => if k = x then c else 0)).sum = 0 := by
        apply List.sum_eq_zero
        intro y hy
        obtain ⟨x, hx, rfl⟩ := List.mem_map.mp hy
        exact if_neg (by rintro rfl; exact (List.nodup_cons.mp hn).1 hx)
      simp [hz]
    · have hka : ¬ (k = a) := by
        rintro rfl; exact (List.nodup_cons.mp hn).1 hkt
      simp only [List.map_cons, List.sum_cons, if_neg hka, zero_add]
      exact ih hkt (List.nodup_cons.mp hn).2

theorem sum_filter_key {κ α : Type} [DecidableEq κ] (key : α → κ) (f : α → ℚ) :
    ∀ (l : List α) (ks : List κ), ks.Nodup → (∀ x ∈ l, key x ∈ ks) →
      (ks.map (fun k => ((l.filter (fun x => key x == k)).map f).sum)).sum
        = (l.map f).sum := by
  intro l
  induction l with
  | nil => intro ks _ _; simp
  | cons x xs ih =>
    intro ks hn hmem
    have hstep : ∀ k, ((List.filter (fun y => key y == k) (x :: xs)).map f).sum
        = (if key x = k then f x else 0)
          + ((xs.filter (fun y => key y == k)).map f).sum := by
      intro k
      by_cases h : key x = k <;> simp [List.filter_cons, h]
    have h2 : (ks.map (fun k =>
          ((List.filter (fun y => key y == k) (x :: xs)).map f).sum)).sum
        = (ks.map (fun k => (if key x = k then f x else 0)
            + ((xs.filter (fun y => key y == k)).map f).sum)).sum := by
      exact congrArg List.sum (List.map_congr_left (fun k _ => hstep k))
    rw [h2, sum_map_add, sum_indicator (key x) (f x) ks
        (hmem x (List.mem_cons_self x xs)) hn,
      ih ks hn (fun y hy => hmem y (List.mem_cons_of_mem x hy))]
    simp

theorem sum_split_pred {α : Type} (p : α → Bool) (f : α → ℚ) (l : List α) :
    (l.map f).sum = ((l.filter p).map f).sum
      + ((l.filter (fun x => !(p x))).map f).sum := by
  induction l with
  | nil => simp
  | cons x xs ih =>
    by_cases h : p x
    · simp [List.filter_cons, h, ih]; ring
    · simp [List.filter_cons, h, ih]; ring

theorem sum_filter_ne_zero {α : Type} (g : α → ℚ) (l : List α) :
    ((l.filter (fun x => !(g x == 0))).map g).sum = (l.map g).sum := by
  induction l with
  | nil => simp
  | cons x xs ih =>
    by_cases h : g x = 0 <;>
      simp [List.filter_cons, h, ih]

/-! ## Sweep-loop lemmas -/

theorem sweepLoop_ge (l : List Event) :
    ∀ cur maxC : ℚ, maxC ≤ sweepLoop cur maxC l := by
  induction l with
  | nil => intro cur maxC; exact le_refl _
  | cons e es ih =>
    intro cur maxC
    simp only [sweepLoop]
    refine le_trans ?_ (ih (cur + e.delta) _)
    by_cases h : maxC < cur + e.delta <;> simp [h]
    exact le_of_lt h

/-- Two sorted event lists that are permutations of each other and whose
dates are pairwise distinct are equal. -/
theorem eq_of_perm_sorted_distinct :
    ∀ {l₁ l₂ : List Event}, l₁.Perm l₂ → l₁.Sorted eventLE →
      l₂.Sorted eventLE → l₁.Pairwise (fun a b => a.date ≠ b.date) →
      l₁ = l₂ := by
  intro l₁
  induction l₁ with
  | nil =>
    intro l₂ hp _ _ _
    exact (hp.symm.eq_nil).symm
  | cons a t ih =>
    intro l₂ hp hs₁ hs₂ hd
    cases l₂ with
    | nil => exact absurd hp.eq_nil (by simp)
    | cons b t₂ =>
      have hab : a = b := by
        have hb : b ∈ a :: t := hp.mem_iff.mpr (List.mem_cons_self b t₂)
        have ha : a ∈ b :: t₂ := hp.mem_iff.mp (List.mem_cons_self a t)
        rcases List.mem_cons.mp hb with h | hbt
        · exact h.symm
        rcases List.mem_cons.mp ha with h | hat
        · exact h
        have h1 : eventLE a b := (List.sorted_cons.mp hs₁).1 b hbt
        have h2 : eventLE b a := (List.sorted_cons.mp hs₂).1 a hat
        have heq : b.date = a.date := Date.eq_of_before_eq_false h1 h2
        have hne : a.date ≠ b.date := (List.pairwise_cons.mp hd).1 b hbt
        exact absurd heq.symm hne
      subst hab
      have hpt : t.Perm t₂ := hp.cons_inv
      rw [ih hpt hs₁.of_cons hs₂.of_cons
        ((List.pairwise_cons.mp hd).2)]

/-! ## Claim C7 — concrete put-option scenario -/


/-- C7: for the single XYZ put (strike 100, 2 contracts, open 2024-01-10,
close 2024-01-25, profit 500), the sweep for 2024-01 has initial collateral
0, events (2024-01-10, +20000) and (2024-01-25, -20000), and peak 20000;
`buildMonthlyData` over [2024-01, 2024-12] reports puts total 500 and APR
exactly 30 for 2024-01. -/
theorem claim7_concrete_scenario :
    initialCollateral (firstOfMonth ⟨2024, 1⟩) (nextMonthStart ⟨2024, 1⟩)
        [c7xyzPut] [] = 0 ∧
    sortEvents (sweepEvents (firstOfMonth ⟨2024, 1⟩)
        (nextMonthStart ⟨2024, 1⟩) [c7xyzPut] [])
      = [⟨⟨2024, 1, 10⟩, 20000⟩, ⟨⟨2024, 1, 25⟩, -20000⟩] ∧
    calculateMaxCollateral ⟨2024, 1⟩ [c7xyzPut] [] = 20000 ∧
    (buildMonthlyData [c7xyzPut] [] [] (some ⟨2024, 1⟩)
        (some ⟨2024, 12⟩)).putsByMonth = [⟨⟨2024, 1⟩, 500⟩] ∧
    (buildMonthlyData [c7xyzPut] [] [] (some ⟨2024, 1⟩)
        (some ⟨2024, 12⟩)).aprByMonth = [⟨⟨2024, 1⟩, 30⟩] := by
  refine ⟨?_, ?_, ?_, ?_, ?_⟩ <;>
    norm_num +decide [c7xyzPut, calculateMaxCollateral, initialCollateral,
      optionInitialContrib, positionInitialContrib, optionInSweep,
      positionInSweep, firstOfMonth, nextMonthStart, Date.before,
      optionCollateral, positionCollateral, sortEvents, sweepEvents,
      optionEvents, positionEvents, List.insertionSort, List.orderedInsert,
      eventLE, sweepLoop, buildMonthlyData, filtOptions, filtDividends,
      filtClosedPositions, keepYM, YM.lt, OptionRec.ym, DividendRec.ym,
      LongPositionRec.cym, monthKey, yearMonths, monthKeysList, ymLE,
      putsByYearMonth, callsByYearMonth, capGainsByYearMonth,
      dividendsByYearMonth, aprValue, List.filter_cons, List.filter_nil]

/-! ## Claim C2 — sweep participation vs. interval intersection -/


/-- C2 (amended): a record passes the sweep's guards iff its interval
intersects the month OR it opened before month end and closed exactly at
the month start; the "iff intersects" of the claim fails in the latter
case (see the counterexample), where a record opened earlier still adds
its collateral to the initial collateral and can raise the returned peak. -/
theorem claim2_participation (startD endD : Date) (o : OptionRec)
    (p : LongPositionRec) :
    (optionInSweep startD endD o = true ↔
      (o.otype = "Put" ∧
        (specActiveIntervalIntersects startD endD o.opened o.closed = true ∨
          (o.opened.before endD = true ∧ o.closed = some startD)))) ∧
    (positionInSweep startD endD p = true ↔
      (specActiveIntervalIntersects startD endD p.opened p.closed = true ∨
        (p.opened.before endD = true ∧ p.closed = some startD))) := by
  constructor
  · cases hc : o.closed with
    | none =>
      simp [optionInSweep, specActiveIntervalIntersects, hc,
        Bool.and_eq_true, beq_iff_eq]
    | some c =>
      simp only [optionInSweep, specActiveIntervalIntersects, hc,
        Bool.and_eq_true, beq_iff_eq, Bool.not_eq_true',
        Date.before_eq_false_iff, Option.some.injEq]
      tauto
  · cases hc : p.closed with
    | none =>
      simp [positionInSweep, specActiveIntervalIntersects, hc,
        Bool.and_eq_true]
    | some c =>
      simp only [positionInSweep, specActiveIntervalIntersects, hc,
        Bool.and_eq_true, Bool.not_eq_true', Date.before_eq_false_iff,
        Option.some.injEq]
      tauto


/-- C2 counterexample: the boundary put's interval does not intersect
2024-01, yet `calculateMaxCollateral` for 2024-01 returns 10000 with it and
0 without it — the record contributes its full collateral to the returned
peak, contradicting "contributes nothing". -/
theorem claim2_counterexample :
    specActiveIntervalIntersects (firstOfMonth ⟨2024, 1⟩)
        (nextMonthStart ⟨2024, 1⟩) c2boundaryPut.opened c2boundaryPut.closed
      = false ∧
    calculateMaxCollateral ⟨2024, 1⟩ [c2boundaryPut] [] = 10000 ∧
    calculateMaxCollateral ⟨2024, 1⟩ ([] : List OptionRec) [] = 0 := by
  refine ⟨?_, ?_, ?_⟩ <;>
    norm_num +decide [c2boundaryPut, specActiveIntervalIntersects,
      calculateMaxCollateral, initialCollateral, optionInitialContrib,
      positionInitialContrib, optionInSweep, positionInSweep, firstOfMonth,
      nextMonthStart, Date.before, optionCollateral, positionCollateral,
      sortEvents, sweepEvents, optionEvents, positionEvents,
      List.insertionSort, List.orderedInsert, eventLE, sweepLoop]

/-! ## Claim C6 — peak collateral bounds -/

/-- C6 (amended): the returned peak is always ≥ the initial collateral, and
it is ≥ 0 whenever every record's collateral magnitude is nonnegative
(which fails for e.g. a negative strike, see the counterexample). -/
theorem claim6_peak_bounds (ym : YM) (opts : List OptionRec)
    (poss : List LongPositionRec) :
    initialCollateral (firstOfMonth ym) (nextMonthStart ym) opts poss ≤
      calculateMaxCollateral ym opts poss ∧
    ((∀ o ∈ opts, 0 ≤ optionCollateral o) →
     (∀ p ∈ poss, 0 ≤ positionCollateral p) →
      0 ≤ calculateMaxCollateral ym opts poss) := by
  have hge : initialCollateral (firstOfMonth ym) (nextMonthStart ym) opts
      poss ≤ calculateMaxCollateral ym opts poss := by
    unfold calculateMaxCollateral
    exact sweepLoop_ge _ _ _
  refine ⟨hge, fun h1 h2 => ?_⟩
  have hinit : 0 ≤ initialCollateral (firstOfMonth ym) (nextMonthStart ym)
      opts poss := by
    unfold initialCollateral
    have ha : 0 ≤ (opts.map (optionInitialContrib (firstOfMonth ym)
        (nextMonthStart ym))).sum := by
      apply List.sum_nonneg
      intro x hx
      obtain ⟨o, ho, rfl⟩ := List.mem_map.mp hx
      unfold optionInitialContrib
      split
      · exact h1 o ho
      · exact le_refl 0
    have hb : 0 ≤ (poss.map (positionInitialContrib (firstOfMonth ym)
        (nextMonthStart ym))).sum := by
      apply List.sum_nonneg
      intro x hx
      obtain ⟨p, hp, rfl⟩ := List.mem_map.mp hx
      unfold positionInitialContrib
      split
      · exact h2 p hp
      · exact le_refl 0
    exact add_nonneg ha hb
  exact le_trans hinit hge

/-- Witness for C6 at a concrete input. -/
theorem claim6_peak_bounds_witness :
    (∀ o ∈ ([c2boundaryPut] : List OptionRec), 0 ≤ optionCollateral o) ∧
    (∀ p ∈ ([] : List LongPositionRec), 0 ≤ positionCollateral p) ∧
    0 ≤ calculateMaxCollateral ⟨2024, 1⟩ [c2boundaryPut] [] := by
  have h1 : ∀ o ∈ ([c2boundaryPut] : List OptionRec),
      0 ≤ optionCollateral o := by
    norm_num [c2boundaryPut, optionCollateral]
  have h2 : ∀ p ∈ ([] : List LongPositionRec), 0 ≤ positionCollateral p := by
    simp
  exact ⟨h1, h2, (claim6_peak_bounds ⟨2024, 1⟩ [c2boundaryPut] []).2 h1 h2⟩


/-- C6 counterexample: with a negative-strike put carried into the month,
the returned peak is -20000 < 0, refuting the unconditional "≥ 0". -/
theorem claim6_counterexample :
    calculateMaxCollateral ⟨2024, 1⟩ [c6negPut] [] = -20000 ∧
    calculateMaxCollateral ⟨2024, 1⟩ [c6negPut] [] < 0 := by
  constructor <;>
    norm_num +decide [c6negPut, calculateMaxCollateral, initialCollateral,
      optionInitialContrib, positionInitialContrib, optionInSweep,
      positionInSweep, firstOfMonth, nextMonthStart, Date.before,
      optionCollateral, positionCollateral, sortEvents, sweepEvents,
      optionEvents, positionEvents, List.insertionSort, List.orderedInsert,
      eventLE, sweepLoop]

/-! ## Claim C4 — zero-collateral APR policy -/

/-- C4: in the output of `buildMonthlyData`, an APR entry and the collateral
entry of the same month satisfy: zero collateral gives APR exactly 0, and
positive collateral gives the annualization formula. (In this exact-
arithmetic model the APR is total — the `maxCollateral > 0` guard means no
division by zero is ever attempted.) -/
theorem claim4_apr_policy (opts : List OptionRec) (divs : List DividendRec)
    (poss : List LongPositionRec) (fromM toM : Option YM)
    (e c : MonthlyChartData)
    (he : e ∈ (buildMonthlyData opts divs poss fromM toM).aprByMonth)
    (hc : c ∈ (buildMonthlyData opts divs poss fromM toM).collateralByMonth)
    (hm : e.month = c.month) :
    (c.amount = 0 → e.amount = 0) ∧
    (0 < c.amount → e.amount =
      (putsByYearMonth (filtOptions fromM toM opts) c.month +
       callsByYearMonth (filtOptions fromM toM opts) c.month)
        / c.amount * 12 * 100) := by
  simp only [buildMonthlyData, List.mem_map] at he hc
  obtain ⟨ym₁, hym₁, rfl⟩ := he
  obtain ⟨ym₂, hym₂, rfl⟩ := hc
  dsimp at hm ⊢
  subst hm
  constructor
  · intro h0
    simp [aprValue, h0]
  · intro hpos
    simp [aprValue, if_pos hpos]


/-- Witness for C4: a month whose only activity is a dividend has zero
collateral and APR exactly 0. -/
theorem claim4_apr_policy_witness :
    ((⟨⟨2024, 2⟩, 0⟩ : MonthlyChartData) ∈
      (buildMonthlyData [] [c4dividend] [] none none).aprByMonth) ∧
    ((⟨⟨2024, 2⟩, 0⟩ : MonthlyChartData) ∈
      (buildMonthlyData [] [c4dividend] [] none none).collateralByMonth) ∧
    (((⟨⟨2024, 2⟩, 0⟩ : MonthlyChartData).amount = 0 →
      (⟨⟨2024, 2⟩, 0⟩ : MonthlyChartData).amount = 0) ∧
     (0 < (⟨⟨2024, 2⟩, 0⟩ : MonthlyChartData).amount →
      (⟨⟨2024, 2⟩, 0⟩ : MonthlyChartData).amount =
        (putsByYearMonth (filtOptions none none []) ⟨2024, 2⟩ +
         callsByYearMonth (filtOptions none none []) ⟨2024, 2⟩)
          / (⟨⟨2024, 2⟩, 0⟩ : MonthlyChartData).amount * 12 * 100)) := by
  have h1 : (⟨⟨2024, 2⟩, 0⟩ : MonthlyChartData) ∈
      (buildMonthlyData [] [c4dividend] [] none none).aprByMonth := by
    norm_num +decide [c4dividend, buildMonthlyData, filtOptions,
      filtDividends, filtClosedPositions, keepYM, DividendRec.ym, monthKey,
      yearMonths, monthKeysList, ymLE, List.insertionSort,
      List.orderedInsert, putsByYearMonth, callsByYearMonth, aprValue,
      calculateMaxCollateral, initialCollateral, sweepEvents, sortEvents,
      sweepLoop, List.filter_cons, List.filter_nil]
  have h2 : (⟨⟨2024, 2⟩, 0⟩ : MonthlyChartData) ∈
      (buildMonthlyData [] [c4dividend] [] none none).collateralByMonth := by
    norm_num +decide [c4dividend, buildMonthlyData, filtOptions,
      filtDividends, filtClosedPositions, keepYM, DividendRec.ym, monthKey,
      yearMonths, monthKeysList, ymLE, List.insertionSort,
      List.orderedInsert, calculateMaxCollateral, initialCollateral,
      sweepEvents, sortEvents, sweepLoop, List.filter_cons, List.filter_nil]
  exact ⟨h1, h2, claim4_apr_policy [] [c4dividend] [] none none _ _ h1 h2 rfl⟩

/-! ## Claim C8 — `monthlyHandler` default month range -/

theorem daysInMonth_ge (y m : Int) : 28 ≤ daysInMonth y m := by
  unfold daysInMonth
  split_ifs <;> norm_num

/-- `AddDate(0, -11, 0)` never overflows the day when the day-of-month is at
most 28 (every month has at least 28 days). -/
theorem addMonths_neg11 (d : Date) (hd : d.day ≤ 28) :
    addMonths d (-11) = ⟨d.year + (d.month + -11 - 1).ediv 12,
      (d.month + -11 - 1).emod 12 + 1, d.day⟩ := by
  simp only [addMonths]
  rw [if_neg]
  have h := daysInMonth_ge (d.year + (d.month + -11 - 1).ediv 12)
    ((d.month + -11 - 1).emod 12 + 1)
  omega

/-- C8 (amended): the handler applies the default window iff AT LEAST ONE
bound is missing, and then it replaces BOTH bounds (a supplied bound is
discarded, see the counterexample); when the current day-of-month is ≤ 28
the defaulted window spans exactly 12 calendar months (current month and
the 11 preceding ones); for day-of-month 29–31 the start can roll one month
forward (see the counterexample). -/
theorem claim8_default_range (qFrom qTo : Option YM) (now : Date)
    (hv : validDate now) (hd : now.day ≤ 28) :
    (qFrom ≠ none → qTo ≠ none →
      monthlyHandlerRange qFrom qTo now = (qFrom, qTo)) ∧
    ((qFrom = none ∨ qTo = none) →
      monthlyHandlerRange qFrom qTo now =
        (some (monthKey (addMonths now (-11))), some (monthKey now))) ∧
    ymIndex (monthKey now) - ymIndex (monthKey (addMonths now (-11)))
      = 11 := by
  refine ⟨?_, ?_, ?_⟩
  · intro h1 h2
    unfold monthlyHandlerRange
    rw [if_neg (not_or.mpr ⟨h1, h2⟩)]
  · intro h
    unfold monthlyHandlerRange
    rw [if_pos h]
  · obtain ⟨hm1, hm2, _, _⟩ := hv
    rw [addMonths_neg11 now hd]
    simp only [ymIndex, monthKey]
    have hde : 12 * ((now.month + -11 - 1).ediv 12)
        + ((now.month + -11 - 1).emod 12) = now.month + -11 - 1 :=
      Int.ediv_add_emod _ _
    have he0 : 0 ≤ (now.month + -11 - 1).emod 12 :=
      Int.emod_nonneg _ (by norm_num)
    have he1 : (now.month + -11 - 1).emod 12 < 12 :=
      Int.emod_lt_of_pos _ (by norm_num)
    omega

/-- Witness for C8 at `now = 2024-03-15` with both bounds absent. -/
theorem claim8_default_range_witness :
    validDate ⟨2024, 3, 15⟩ ∧ (⟨2024, 3, 15⟩ : Date).day ≤ 28 ∧
    monthlyHandlerRange none none ⟨2024, 3, 15⟩ =
      (some (monthKey (addMonths ⟨2024, 3, 15⟩ (-11))),
       some (monthKey ⟨2024, 3, 15⟩)) ∧
    ymIndex (monthKey ⟨2024, 3, 15⟩) -
      ymIndex (monthKey (addMonths ⟨2024, 3, 15⟩ (-11))) = 11 := by
  have hv : validDate ⟨2024, 3, 15⟩ := by
    norm_num [validDate, daysInMonth, isLeap]
  have hd : (⟨2024, 3, 15⟩ : Date).day ≤ 28 := by norm_num
  have h := claim8_default_range none none ⟨2024, 3, 15⟩ hv hd
  exact ⟨hv, hd, h.2.1 (Or.inl rfl), h.2.2⟩

/-- C8 counterexample: (a) supplying only `from=2020-05` does NOT leave that
bound in effect — the handler overwrites both bounds with the default; (b)
for current date 2024-03-31, `AddDate(0,-11,0)` normalizes 2023-04-31 to
2023-05-01, so the defaulted window spans only 11 months, not 12. -/
theorem claim8_counterexample :
    (monthlyHandlerRange (some ⟨2020, 5⟩) none ⟨2024, 3, 15⟩).1
      ≠ some ⟨2020, 5⟩ ∧
    monthlyHandlerRange none none ⟨2024, 3, 31⟩
      = (some ⟨2023, 5⟩, some ⟨2024, 3⟩) ∧
    ymIndex ⟨2024, 3⟩ - ymIndex ⟨2023, 5⟩ = 10 := by
  refine ⟨?_, ?_, ?_⟩ <;> decide

/-! ## Claim C9 — symbol-scoped calendar fold -/

/-- C9: `buildSymbolMonthlyResults` always returns exactly 12 buckets, named
January..December in calendar order; bucket `i` counts and sums exactly the
options whose open month number is `i+1`, irrespective of the year (so two
options opened in the same calendar month of different years land in the
same bucket and their contributions add), and its `Total` is
`PutsTotal + CallsTotal`. Options whose `Type` is not `"Put"` take the
`else` branch of the source and are counted on the calls side. -/
theorem claim9_calendar_fold (opts : List OptionRec) :
    (buildSymbolMonthlyResults opts).length = 12 ∧
    (∀ i : Nat, i < 12 →
      ((buildSymbolMonthlyResults opts).getD i ⟨"", 0, 0, 0, 0, 0⟩).month
          = monthNames.getD i "" ∧
      ((buildSymbolMonthlyResults opts).getD i ⟨"", 0, 0, 0, 0, 0⟩).putsCount
          = (opts.filter (fun o =>
              o.otype == "Put" && o.opened.month == (i : Int) + 1)).length ∧
      ((buildSymbolMonthlyResults opts).getD i ⟨"", 0, 0, 0, 0, 0⟩).callsCount
          = (opts.filter (fun o =>
              !(o.otype == "Put") && o.opened.month == (i : Int) + 1)).length ∧
      ((buildSymbolMonthlyResults opts).getD i ⟨"", 0, 0, 0, 0, 0⟩).putsTotal
          = ((opts.filter (fun o =>
              o.otype == "Put" && o.opened.month == (i : Int) + 1)).map
                (·.totalProfit)).sum ∧
      ((buildSymbolMonthlyResults opts).getD i ⟨"", 0, 0, 0, 0, 0⟩).callsTotal
          = ((opts.filter (fun o =>
              !(o.otype == "Put") && o.opened.month == (i : Int) + 1)).map
                (·.totalProfit)).sum ∧
      ((buildSymbolMonthlyResults opts).getD i ⟨"", 0, 0, 0, 0, 0⟩).total
          = ((buildSymbolMonthlyResults opts).getD i
              ⟨"", 0, 0, 0, 0, 0⟩).putsTotal +
            ((buildSymbolMonthlyResults opts).getD i
              ⟨"", 0, 0, 0, 0, 0⟩).callsTotal) := by
  constructor
  · simp [buildSymbolMonthlyResults]
  · intro i hi
    have hg : (buildSymbolMonthlyResults opts).getD i ⟨"", 0, 0, 0, 0, 0⟩
        = symbolMonthBucket opts i := by
      simp [buildSymbolMonthlyResults, List.getD_eq_getElem?_getD,
        List.getElem?_map, List.getElem?_range hi]
    rw [hg]
    simp [symbolMonthBucket]



/-- Witness for C9: the two March puts of different years land in bucket 2
(March) and their count and totals add across the years. -/
theorem claim9_calendar_fold_witness :
    (2 : Nat) < 12 ∧
    ((buildSymbolMonthlyResults [c9putMarch2023, c9putMarch2024]).getD 2
        ⟨"", 0, 0, 0, 0, 0⟩).month = "March" ∧
    ((buildSymbolMonthlyResults [c9putMarch2023, c9putMarch2024]).getD 2
        ⟨"", 0, 0, 0, 0, 0⟩).putsCount = 2 ∧
    ((buildSymbolMonthlyResults [c9putMarch2023, c9putMarch2024]).getD 2
        ⟨"", 0, 0, 0, 0, 0⟩).putsTotal = 30 := by
  have h := (claim9_calendar_fold [c9putMarch2023, c9putMarch2024]).2 2
    (by norm_num)
  refine ⟨by norm_num, ?_, ?_, ?_⟩
  · rw [h.1]; rfl
  · rw [h.2.1]
    norm_num +decide [c9putMarch2023, c9putMarch2024, List.filter_cons]
  · rw [h.2.2.2.1]
    norm_num +decide [c9putMarch2023, c9putMarch2024, List.filter_cons]

/-! ## Aggregation machinery: membership, nodup and flattening lemmas -/

theorem nodup_yearMonths (fo : List OptionRec) (fd : List DividendRec)
    (fp : List LongPositionRec) : (yearMonths fo fd fp).Nodup :=
  ((List.perm_insertionSort ymLE _).nodup_iff).mpr (List.nodup_dedup _)

theorem mem_yearMonths {fo : List OptionRec} {fd : List DividendRec}
    {fp : List LongPositionRec} {ym : YM} :
    ym ∈ yearMonths fo fd fp ↔ ym ∈ monthKeysList fo fd fp := by
  unfold yearMonths
  rw [(List.perm_insertionSort ymLE _).mem_iff, List.mem_dedup]

theorem nodup_tickersList (fo : List OptionRec) (fd : List DividendRec)
    (fp : List LongPositionRec) : (tickersList fo fd fp).Nodup :=
  List.nodup_dedup _

theorem nodup_tickerMonths (fo : List OptionRec) (fd : List DividendRec)
    (fp : List LongPositionRec) (t : String) :
    (tickerMonths fo fd fp t).Nodup :=
  List.nodup_dedup _

theorem opt_symbol_mem_tickersList {fo : List OptionRec}
    {fd : List DividendRec} {fp : List LongPositionRec} {o : OptionRec}
    (ho : o ∈ fo) : o.symbol ∈ tickersList fo fd fp := by
  unfold tickersList
  exact List.mem_dedup.mpr (List.mem_append_left _
    (List.mem_append_left _ (List.mem_map.mpr ⟨o, ho, rfl⟩)))

theorem div_symbol_mem_tickersList {fo : List OptionRec}
    {fd : List DividendRec} {fp : List LongPositionRec} {d : DividendRec}
    (hd : d ∈ fd) : d.symbol ∈ tickersList fo fd fp := by
  unfold tickersList
  exact List.mem_dedup.mpr (List.mem_append_left _
    (List.mem_append_right _ (List.mem_map.mpr ⟨d, hd, rfl⟩)))

theorem pos_symbol_mem_tickersList {fo : List OptionRec}
    {fd : List DividendRec} {fp : List LongPositionRec}
    {p : LongPositionRec} (hp : p ∈ fp) : p.symbol ∈ tickersList fo fd fp := by
  unfold tickersList
  exact List.mem_dedup.mpr
    (List.mem_append_right _ (List.mem_map.mpr ⟨p, hp, rfl⟩))

theorem opt_ym_mem_monthKeysList {fo : List OptionRec}
    {fd : List DividendRec} {fp : List LongPositionRec} {o : OptionRec}
    (ho : o ∈ fo) : o.ym ∈ monthKeysList fo fd fp := by
  unfold monthKeysList
  exact List.mem_append_left _
    (List.mem_append_left _ (List.mem_map.mpr ⟨o, ho, rfl⟩))

theorem div_ym_mem_monthKeysList {fo : List OptionRec}
    {fd : List DividendRec} {fp : List LongPositionRec} {d : DividendRec}
    (hd : d ∈ fd) : d.ym ∈ monthKeysList fo fd fp := by
  unfold monthKeysList
  exact List.mem_append_left _
    (List.mem_append_right _ (List.mem_map.mpr ⟨d, hd, rfl⟩))

theorem pos_cym_mem_monthKeysList {fo : List OptionRec}
    {fd : List DividendRec} {fp : List LongPositionRec}
    {p : LongPositionRec} (hp : p ∈ fp) : p.cym ∈ monthKeysList fo fd fp := by
  unfold monthKeysList
  exact List.mem_append_right _ (List.mem_map.mpr ⟨p, hp, rfl⟩)

theorem opt_ym_mem_tickerMonths {fo : List OptionRec} {fd : List DividendRec}
    {fp : List LongPositionRec} {o : OptionRec} {t : String} (ho : o ∈ fo)
    (hsym : o.symbol = t) : o.ym ∈ tickerMonths fo fd fp t := by
  unfold tickerMonths
  refine List.mem_dedup.mpr (List.mem_append_left _
    (List.mem_append_left _ (List.mem_map.mpr ⟨o, ?_, rfl⟩)))
  exact List.mem_filter.mpr ⟨ho, by simp [hsym]⟩

theorem div_ym_mem_tickerMonths {fo : List OptionRec} {fd : List DividendRec}
    {fp : List LongPositionRec} {d : DividendRec} {t : String} (hd : d ∈ fd)
    (hsym : d.symbol = t) : d.ym ∈ tickerMonths fo fd fp t := by
  unfold tickerMonths
  refine List.mem_dedup.mpr (List.mem_append_left _
    (List.mem_append_right _ (List.mem_map.mpr ⟨d, ?_, rfl⟩)))
  exact List.mem_filter.mpr ⟨hd, by simp [hsym]⟩

theorem pos_cym_mem_tickerMonths {fo : List OptionRec}
    {fd : List DividendRec} {fp : List LongPositionRec}
    {p : LongPositionRec} {t : String} (hp : p ∈ fp) (hsym : p.symbol = t) :
    p.cym ∈ tickerMonths fo fd fp t := by
  unfold tickerMonths
  refine List.mem_dedup.mpr
    (List.mem_append_right _ (List.mem_map.mpr ⟨p, ?_, rfl⟩))
  exact List.mem_filter.mpr ⟨hp, by simp [hsym]⟩

theorem sum_filter_and_comm {α : Type} (f : α → ℚ) (p q : α → Bool)
    (l : List α) :
    ((l.filter (fun x => p x && q x)).map f).sum
      = ((l.filter (fun x => q x && p x)).map f).sum :=
  congrArg (fun l' => (List.map f l').sum)
    (List.filter_congr (fun x _ => Bool.and_comm (p x) (q x)))

/-- The matrix cell written with the month filter innermost (row view). -/
theorem tickerMonthCell_nested_month (fo : List OptionRec)
    (fd : List DividendRec) (fp : List LongPositionRec) (t : String)
    (ym : YM) :
    tickerMonthCell fo fd fp t ym
      = (((fo.filter (fun o => o.symbol == t)).filter
            (fun o => o.ym == ym)).map (·.totalProfit)).sum
      + (((fd.filter (fun d => d.symbol == t)).filter
            (fun d => d.ym == ym)).map (·.amount)).sum
      + (((fp.filter (fun p => p.symbol == t)).filter
            (fun p => p.cym == ym)).map positionProfit).sum := by
  unfold tickerMonthCell
  rw [List.filter_filter, List.filter_filter, List.filter_filter,
    sum_filter_and_comm (·.totalProfit) (fun o => o.symbol == t)
      (fun o => o.ym == ym) fo,
    sum_filter_and_comm (·.amount) (fun d => d.symbol == t)
      (fun d => d.ym == ym) fd,
    sum_filter_and_comm positionProfit (fun p => p.symbol == t)
      (fun p => p.cym == ym) fp]

/-- The matrix cell written with the symbol filter innermost (column view). -/
theorem tickerMonthCell_nested_symbol (fo : List OptionRec)
    (fd : List DividendRec) (fp : List LongPositionRec) (t : String)
    (ym : YM) :
    tickerMonthCell fo fd fp t ym
      = (((fo.filter (fun o => o.ym == ym)).filter
            (fun o => o.symbol == t)).map (·.totalProfit)).sum
      + (((fd.filter (fun d => d.ym == ym)).filter
            (fun d => d.symbol == t)).map (·.amount)).sum
      + (((fp.filter (fun p => p.cym == ym)).filter
            (fun p => p.symbol == t)).map positionProfit).sum := by
  unfold tickerMonthCell
  rw [List.filter_filter, List.filter_filter, List.filter_filter]

/-- Summing a ticker's cells over any duplicate-free month list containing
all of that ticker's months yields the ticker's flat record total. -/
theorem sum_cell_over_months (fo : List OptionRec) (fd : List DividendRec)
    (fp : List LongPositionRec) (t : String) (K : List YM) (hK : K.Nodup)
    (h1 : ∀ o ∈ fo, o.symbol = t → o.ym ∈ K)
    (h2 : ∀ d ∈ fd, d.symbol = t → d.ym ∈ K)
    (h3 : ∀ p ∈ fp, p.symbol = t → p.cym ∈ K) :
    (K.map (fun ym => tickerMonthCell fo fd fp t ym)).sum
      = ((fo.filter (fun o => o.symbol == t)).map (·.totalProfit)).sum
      + ((fd.filter (fun d => d.symbol == t)).map (·.amount)).sum
      + ((fp.filter (fun p => p.symbol == t)).map positionProfit).sum := by
  rw [List.map_congr_left
    (fun ym _ => tickerMonthCell_nested_month fo fd fp t ym)]
  rw [sum_map_add, sum_map_add]
  rw [sum_filter_key OptionRec.ym (·.totalProfit)
      (fo.filter (fun o => o.symbol == t)) K hK
      (fun x hx => h1 x (List.mem_filter.mp hx).1
        (by simpa using (List.mem_filter.mp hx).2)),
    sum_filter_key DividendRec.ym (·.amount)
      (fd.filter (fun d => d.symbol == t)) K hK
      (fun x hx => h2 x (List.mem_filter.mp hx).1
        (by simpa using (List.mem_filter.mp hx).2)),
    sum_filter_key LongPositionRec.cym positionProfit
      (fp.filter (fun p => p.symbol == t)) K hK
      (fun x hx => h3 x (List.mem_filter.mp hx).1
        (by simpa using (List.mem_filter.mp hx).2))]

/-- Summing a month's cells over any duplicate-free ticker list containing
all of that month's tickers yields the month's flat record total. -/
theorem sum_cell_over_tickers (fo : List OptionRec) (fd : List DividendRec)
    (fp : List LongPositionRec) (ym : YM) (T : List String) (hT : T.Nodup)
    (h1 : ∀ o ∈ fo, o.ym = ym → o.symbol ∈ T)
    (h2 : ∀ d ∈ fd, d.ym = ym → d.symbol ∈ T)
    (h3 : ∀ p ∈ fp, p.cym = ym → p.symbol ∈ T) :
    (T.map (fun t => tickerMonthCell fo fd fp t ym)).sum
      = ((fo.filter (fun o => o.ym == ym)).map (·.totalProfit)).sum
      + ((fd.filter (fun d => d.ym == ym)).map (·.amount)).sum
      + ((fp.filter (fun p => p.cym == ym)).map positionProfit).sum := by
  rw [List.map_congr_left
    (fun t _ => tickerMonthCell_nested_symbol fo fd fp t ym)]
  rw [sum_map_add, sum_map_add]
  rw [sum_filter_key (fun o : OptionRec => o.symbol) (·.totalProfit)
      (fo.filter (fun o => o.ym == ym)) T hT
      (fun x hx => h1 x (List.mem_filter.mp hx).1
        (by simpa using (List.mem_filter.mp hx).2)),
    sum_filter_key (fun d : DividendRec => d.symbol) (·.amount)
      (fd.filter (fun d => d.ym == ym)) T hT
      (fun x hx => h2 x (List.mem_filter.mp hx).1
        (by simpa using (List.mem_filter.mp hx).2)),
    sum_filter_key (fun p : LongPositionRec => p.symbol) positionProfit
      (fp.filter (fun p => p.cym == ym)) T hT
      (fun x hx => h3 x (List.mem_filter.mp hx).1
        (by simpa using (List.mem_filter.mp hx).2))]

/-- Summing per-ticker flat totals over any duplicate-free ticker list
containing every record's symbol yields the global flat total. -/
theorem sum_flat_over_tickers (fo : List OptionRec) (fd : List DividendRec)
    (fp : List LongPositionRec) (T : List String) (hT : T.Nodup)
    (h1 : ∀ o ∈ fo, o.symbol ∈ T) (h2 : ∀ d ∈ fd, d.symbol ∈ T)
    (h3 : ∀ p ∈ fp, p.symbol ∈ T) :
    (T.map (fun t =>
        ((fo.filter (fun o => o.symbol == t)).map (·.totalProfit)).sum
      + ((fd.filter (fun d => d.symbol == t)).map (·.amount)).sum
      + ((fp.filter (fun p => p.symbol == t)).map positionProfit).sum)).sum
      = (fo.map (·.totalProfit)).sum + (fd.map (·.amount)).sum
        + (fp.map positionProfit).sum := by
  rw [sum_map_add, sum_map_add]
  rw [sum_filter_key (fun o : OptionRec => o.symbol) (·.totalProfit) fo T
      hT h1,
    sum_filter_key (fun d : DividendRec => d.symbol) (·.amount) fd T hT h2,
    sum_filter_key (fun p : LongPositionRec => p.symbol) positionProfit fp
      T hT h3]

/-- The grand total is the flat sum of every record's attributed value. -/
theorem grandTotalOf_flat (fo : List OptionRec) (fd : List DividendRec)
    (fp : List LongPositionRec) :
    grandTotalOf fo fd fp = (fo.map (·.totalProfit)).sum
      + (fd.map (·.amount)).sum + (fp.map positionProfit).sum := by
  unfold grandTotalOf
  rw [List.map_congr_left (fun t _ => by
    unfold rowTotal
    exact sum_cell_over_months fo fd fp t (tickerMonths fo fd fp t)
      (nodup_tickerMonths fo fd fp t)
      (fun o ho hs => opt_ym_mem_tickerMonths ho hs)
      (fun d hd hs => div_ym_mem_tickerMonths hd hs)
      (fun p hp hs => pos_cym_mem_tickerMonths hp hs))]
  exact sum_flat_over_tickers fo fd fp (tickersList fo fd fp)
    (nodup_tickersList fo fd fp)
    (fun o ho => opt_symbol_mem_tickersList ho)
    (fun d hd => div_symbol_mem_tickersList hd)
    (fun p hp => pos_symbol_mem_tickersList hp)

/-- A month's flat options total splits into the puts and calls buckets when
every option's type is `"Put"` or `"Call"`. -/
theorem options_month_sum_split (fo : List OptionRec) (ym : YM)
    (hty : ∀ o ∈ fo, o.otype = "Put" ∨ o.otype = "Call") :
    ((fo.filter (fun o => o.ym == ym)).map (·.totalProfit)).sum
      = putsByYearMonth fo ym + callsByYearMonth fo ym := by
  rw [sum_split_pred (fun o => o.otype == "Put") (·.totalProfit)
    (fo.filter (fun o => o.ym == ym))]
  rw [List.filter_filter, List.filter_filter]
  congr 1
  unfold callsByYearMonth
  refine congrArg
    (fun l : List OptionRec => (List.map (fun o => o.totalProfit) l).sum) ?_
  refine List.filter_congr ?_
  intro x hx
  rcases hty x hx with h | h <;> simp [h]

/-! ## Claim C1 — matrix additivity -/

/-- C1 (amended): over the FULL ticker×month matrix (all ticker rows,
before zero-total rows are dropped), the sum of every cell equals the grand
total and each month column sums to that month's combined
puts+calls+capGains+dividends total, provided every option's type is `Put`
or `Call` (the `options` table CHECK constraint); dropping zero-total rows
preserves the grand total. Summing a month's column over only the RETAINED
rows can differ from the month total (see the counterexample): a dropped
row's cells need not be zero individually, they only cancel across months. -/
theorem claim1_additivity (opts : List OptionRec) (divs : List DividendRec)
    (poss : List LongPositionRec) (fromM toM : Option YM)
    (fo : List OptionRec) (fd : List DividendRec) (fp : List LongPositionRec)
    (hfo : fo = filtOptions fromM toM opts)
    (hfd : fd = filtDividends fromM toM divs)
    (hfp : fp = filtClosedPositions fromM toM poss)
    (hty : ∀ o ∈ opts, o.otype = "Put" ∨ o.otype = "Call") :
    grandTotalOf fo fd fp
      = ((tickersList fo fd fp).map (fun t =>
          ((yearMonths fo fd fp).map
            (fun ym => tickerMonthCell fo fd fp t ym)).sum)).sum ∧
    (∀ ym ∈ yearMonths fo fd fp,
      ((tickersList fo fd fp).map
          (fun t => tickerMonthCell fo fd fp t ym)).sum
        = putsByYearMonth fo ym + callsByYearMonth fo ym
          + capGainsByYearMonth fp ym + dividendsByYearMonth fd ym) ∧
    (((tickersList fo fd fp).filter
        (fun t => !(rowTotal fo fd fp t == 0))).map
          (rowTotal fo fd fp)).sum
      = grandTotalOf fo fd fp := by
  have hty' : ∀ o ∈ fo, o.otype = "Put" ∨ o.otype = "Call" := by
    intro o ho
    rw [hfo] at ho
    exact hty o (List.mem_filter.mp ho).1
  refine ⟨?_, ?_, ?_⟩
  · rw [grandTotalOf_flat]
    rw [List.map_congr_left (fun t _ =>
      sum_cell_over_months fo fd fp t (yearMonths fo fd fp)
        (nodup_yearMonths fo fd fp)
        (fun o ho _ => mem_yearMonths.mpr (opt_ym_mem_monthKeysList ho))
        (fun d hd _ => mem_yearMonths.mpr (div_ym_mem_monthKeysList hd))
        (fun p hp _ => mem_yearMonths.mpr (pos_cym_mem_monthKeysList hp)))]
    exact (sum_flat_over_tickers fo fd fp _ (nodup_tickersList _ _ _)
      (fun o ho => opt_symbol_mem_tickersList ho)
      (fun d hd => div_symbol_mem_tickersList hd)
      (fun p hp => pos_symbol_mem_tickersList hp)).symm
  · intro ym _
    rw [sum_cell_over_tickers fo fd fp ym (tickersList fo fd fp)
      (nodup_tickersList _ _ _)
      (fun o ho _ => opt_symbol_mem_tickersList ho)
      (fun d hd _ => div_symbol_mem_tickersList hd)
      (fun p hp _ => pos_symbol_mem_tickersList hp)]
    rw [options_month_sum_split fo ym hty']
    simp only [dividendsByYearMonth, capGainsByYearMonth]
    ring
  · rw [sum_filter_ne_zero (rowTotal fo fd fp) (tickersList fo fd fp)]
    rfl

/-- Witness for C1 at a concrete input (one put, one dividend). -/
theorem claim1_additivity_witness :
    ((filtOptions none none [c1putJan] : List OptionRec)
        = filtOptions none none [c1putJan]) ∧
    (∀ o ∈ ([c1putJan] : List OptionRec),
      o.otype = "Put" ∨ o.otype = "Call") ∧
    (grandTotalOf (filtOptions none none [c1putJan])
        (filtDividends none none [c1dividend])
        (filtClosedPositions none none [])
      = ((tickersList (filtOptions none none [c1putJan])
            (filtDividends none none [c1dividend])
            (filtClosedPositions none none [])).map (fun t =>
          ((yearMonths (filtOptions none none [c1putJan])
              (filtDividends none none [c1dividend])
              (filtClosedPositions none none [])).map
            (fun ym => tickerMonthCell (filtOptions none none [c1putJan])
              (filtDividends none none [c1dividend])
              (filtClosedPositions none none []) t ym)).sum)).sum) := by
  have hty : ∀ o ∈ ([c1putJan] : List OptionRec),
      o.otype = "Put" ∨ o.otype = "Call" := by
    intro o ho
    rcases List.mem_cons.mp ho with rfl | h
    · exact Or.inl rfl
    · exact absurd h (List.not_mem_nil o)
  exact ⟨rfl, hty,
    (claim1_additivity [c1putJan] [c1dividend] [] none none _ _ _
      rfl rfl rfl hty).1⟩

/-- C1 counterexample: ticker `A` has +5 in 2024-01 and −5 in 2024-02, so
its row total is 0 and the row is dropped; the retained output rows sum to
7 in the 2024-01 column while that month's combined total is 12. -/
theorem claim1_counterexample :
    (buildMonthlyData [c1putJan, c1putFeb] [c1dividend] [] none
        none).tableData = [⟨"B", 7⟩] ∧
    (buildMonthlyData [c1putJan, c1putFeb] [c1dividend] [] none
        none).totalsByMonth = [⟨⟨2024, 1⟩, 12⟩, ⟨⟨2024, 2⟩, -5⟩] ∧
    (((buildMonthlyData [c1putJan, c1putFeb] [c1dividend] [] none
        none).tableData).map (fun r =>
          tickerMonthCell (filtOptions none none [c1putJan, c1putFeb])
            (filtDividends none none [c1dividend])
            (filtClosedPositions none none []) r.ticker ⟨2024, 1⟩)).sum
      = 7 ∧
    (7 : ℚ) ≠ 12 := by
  refine ⟨?_, ?_, ?_, by norm_num⟩ <;>
    norm_num +decide [c1putJan, c1putFeb, c1dividend, buildMonthlyData,
      filtOptions, filtDividends, filtClosedPositions, keepYM, YM.lt,
      OptionRec.ym, DividendRec.ym, LongPositionRec.cym, monthKey,
      yearMonths, monthKeysList, ymLE, List.insertionSort,
      List.orderedInsert, putsByYearMonth, callsByYearMonth,
      capGainsByYearMonth, dividendsByYearMonth, tickersList, tickerMonths,
      tickerMonthCell, rowTotal, grandTotalOf, positionProfit,
      List.filter_cons, List.filter_nil, List.dedup]

/-! ## Claim C10 — non-Put/Call option types -/

/-- C10 (amended): an option of any type adds its total profit to its
ticker×month matrix cell and to the grand total; an option whose type is
neither exactly `"Put"` nor exactly `"Call"` leaves every category
accumulation (puts/calls by month and by ticker) unchanged — but it DOES
insert its month into the observed month axis, so the emitted category
series lists may gain a zero-amount entry (see the counterexample, which
refutes the claim's "leaving all four category series unchanged"). -/
theorem claim10_type_handling (opts : List OptionRec)
    (divs : List DividendRec) (poss : List LongPositionRec)
    (fromM toM : Option YM) (o : OptionRec) (h1 : o.otype ≠ "Put")
    (h2 : o.otype ≠ "Call") (hk : keepYM fromM toM o.ym = true) :
    (∀ ym, putsByYearMonth (filtOptions fromM toM (opts ++ [o])) ym
        = putsByYearMonth (filtOptions fromM toM opts) ym) ∧
    (∀ ym, callsByYearMonth (filtOptions fromM toM (opts ++ [o])) ym
        = callsByYearMonth (filtOptions fromM toM opts) ym) ∧
    (∀ t, putsByTicker (filtOptions fromM toM (opts ++ [o])) t
        = putsByTicker (filtOptions fromM toM opts) t) ∧
    (∀ t, callsByTicker (filtOptions fromM toM (opts ++ [o])) t
        = callsByTicker (filtOptions fromM toM opts) t) ∧
    tickerMonthCell (filtOptions fromM toM (opts ++ [o]))
        (filtDividends fromM toM divs) (filtClosedPositions fromM toM poss)
        o.symbol o.ym
      = tickerMonthCell (filtOptions fromM toM opts)
          (filtDividends fromM toM divs)
          (filtClosedPositions fromM toM poss) o.symbol o.ym
        + o.totalProfit ∧
    grandTotalOf (filtOptions fromM toM (opts ++ [o]))
        (filtDividends fromM toM divs) (filtClosedPositions fromM toM poss)
      = grandTotalOf (filtOptions fromM toM opts)
          (filtDividends fromM toM divs)
          (filtClosedPositions fromM toM poss) + o.totalProfit ∧
    o.ym ∈ yearMonths (filtOptions fromM toM (opts ++ [o]))
        (filtDividends fromM toM divs)
        (filtClosedPositions fromM toM poss) := by
  have hb1 : (o.otype == "Put") = false := by
    simp [h1]
  have hb2 : (o.otype == "Call") = false := by
    simp [h2]
  have happ : filtOptions fromM toM (opts ++ [o])
      = filtOptions fromM toM opts ++ [o] := by
    simp [filtOptions, List.filter_append, List.filter_cons, hk]
  rw [happ]
  refine ⟨?_, ?_, ?_, ?_, ?_, ?_, ?_⟩
  · intro ym
    simp [putsByYearMonth, List.filter_append, List.filter_cons, hb1]
  · intro ym
    simp [callsByYearMonth, List.filter_append, List.filter_cons, hb2]
  · intro t
    simp [putsByTicker, List.filter_append, List.filter_cons, hb1]
  · intro t
    simp [callsByTicker, List.filter_append, List.filter_cons, hb2]
  · unfold tickerMonthCell
    simp only [List.filter_append, List.filter_cons, List.filter_nil,
      beq_self_eq_true, Bool.and_self, if_true, List.map_append,
      List.sum_append]
    simp
    ring
  · rw [grandTotalOf_flat, grandTotalOf_flat]
    simp only [List.map_append, List.sum_append, List.map_cons,
      List.map_nil, List.sum_cons, List.sum_nil]
    ring
  · refine mem_yearMonths.mpr (opt_ym_mem_monthKeysList ?_)
    exact List.mem_append_right _ (List.mem_cons_self o [])

/-- Witness for C10 at a concrete input. -/
theorem claim10_type_handling_witness :
    c10weirdOption.otype ≠ "Put" ∧ c10weirdOption.otype ≠ "Call" ∧
    keepYM none none c10weirdOption.ym = true ∧
    grandTotalOf (filtOptions none none ([] ++ [c10weirdOption]))
        (filtDividends none none []) (filtClosedPositions none none [])
      = grandTotalOf (filtOptions none none [])
          (filtDividends none none []) (filtClosedPositions none none [])
        + c10weirdOption.totalProfit ∧
    c10weirdOption.ym ∈ yearMonths
        (filtOptions none none ([] ++ [c10weirdOption]))
        (filtDividends none none []) (filtClosedPositions none none []) := by
  have h1 : c10weirdOption.otype ≠ "Put" := by
    simp [c10weirdOption]
  have h2 : c10weirdOption.otype ≠ "Call" := by
    simp [c10weirdOption]
  have hk : keepYM none none c10weirdOption.ym = true := rfl
  have h := claim10_type_handling [] [] [] none none c10weirdOption h1 h2 hk
  exact ⟨h1, h2, hk, h.2.2.2.2.2.1, h.2.2.2.2.2.2⟩

/-- C10 counterexample: a single option of type `"X"` changes the puts
month series — the series gains the zero-amount entry for 2024-03 — while
adding its profit 7 to the grand total. -/
theorem claim10_counterexample :
    c10weirdOption.otype ≠ "Put" ∧ c10weirdOption.otype ≠ "Call" ∧
    (buildMonthlyData [c10weirdOption] [] [] none none).putsByMonth
      = [⟨⟨2024, 3⟩, 0⟩] ∧
    (buildMonthlyData [] [] [] none none).putsByMonth = [] ∧
    (buildMonthlyData [c10weirdOption] [] [] none none).grandTotal = 7 := by
  refine ⟨by simp [c10weirdOption], by simp [c10weirdOption], ?_, ?_, ?_⟩ <;>
    norm_num +decide [c10weirdOption, buildMonthlyData, filtOptions,
      filtDividends, filtClosedPositions, keepYM, YM.lt, OptionRec.ym,
      DividendRec.ym, LongPositionRec.cym, monthKey, yearMonths,
      monthKeysList, ymLE, List.insertionSort, List.orderedInsert,
      putsByYearMonth, callsByYearMonth, capGainsByYearMonth,
      dividendsByYearMonth, tickersList, tickerMonths, tickerMonthCell,
      rowTotal, grandTotalOf, positionProfit, List.filter_cons,
      List.filter_nil, List.dedup]

/-! ## Claim C5 — permutation invariance of the sweep -/

/-- C5 (amended): the initial collateral and the multiset of emitted events
are invariant under permutation of the input lists; the returned peak is
permutation-invariant PROVIDED no two emitted events share a date. With
same-date events from different records the peak can depend on the input
order (see the counterexample): the code applies events one at a time,
comparing after each, and its `sort.Slice` is not stability-guaranteed, so
same-date deltas are not summed before comparison. -/
theorem claim5_perm_invariance (ym : YM) (opts₁ opts₂ : List OptionRec)
    (poss₁ poss₂ : List LongPositionRec) (ho : opts₁.Perm opts₂)
    (hp : poss₁.Perm poss₂)
    (hd : (sweepEvents (firstOfMonth ym) (nextMonthStart ym) opts₁
        poss₁).Pairwise (fun a b => a.date ≠ b.date)) :
    initialCollateral (firstOfMonth ym) (nextMonthStart ym) opts₁ poss₁
      = initialCollateral (firstOfMonth ym) (nextMonthStart ym) opts₂
          poss₂ ∧
    (sweepEvents (firstOfMonth ym) (nextMonthStart ym) opts₁ poss₁).Perm
      (sweepEvents (firstOfMonth ym) (nextMonthStart ym) opts₂ poss₂) ∧
    calculateMaxCollateral ym opts₁ poss₁
      = calculateMaxCollateral ym opts₂ poss₂ := by
  have hinit : initialCollateral (firstOfMonth ym) (nextMonthStart ym)
      opts₁ poss₁ = initialCollateral (firstOfMonth ym) (nextMonthStart ym)
      opts₂ poss₂ := by
    unfold initialCollateral
    rw [(ho.map _).sum_eq, (hp.map _).sum_eq]
  have hev : (sweepEvents (firstOfMonth ym) (nextMonthStart ym) opts₁
      poss₁).Perm (sweepEvents (firstOfMonth ym) (nextMonthStart ym) opts₂
      poss₂) := by
    unfold sweepEvents
    exact (ho.flatMap_right _).append (hp.flatMap_right _)
  have hsorted : sortEvents (sweepEvents (firstOfMonth ym)
      (nextMonthStart ym) opts₁ poss₁) = sortEvents (sweepEvents
      (firstOfMonth ym) (nextMonthStart ym) opts₂ poss₂) := by
    apply eq_of_perm_sorted_distinct
    · exact (List.perm_insertionSort eventLE _).trans
        (hev.trans (List.perm_insertionSort eventLE _).symm)
    · exact List.sorted_insertionSort eventLE _
    · exact List.sorted_insertionSort eventLE _
    · exact ((List.perm_insertionSort eventLE _).pairwise_iff
        (fun h => Ne.symm h)).mpr hd
  refine ⟨hinit, hev, ?_⟩
  simp only [calculateMaxCollateral]
  rw [hinit, hsorted]

/-- Witness for C5: two puts with disjoint event dates, in both orders. -/
theorem claim5_perm_invariance_witness :
    ([c5optA, c5optC] : List OptionRec).Perm [c5optC, c5optA] ∧
    ([] : List LongPositionRec).Perm [] ∧
    (sweepEvents (firstOfMonth ⟨2024, 1⟩) (nextMonthStart ⟨2024, 1⟩)
        [c5optA, c5optC] []).Pairwise (fun a b => a.date ≠ b.date) ∧
    calculateMaxCollateral ⟨2024, 1⟩ [c5optA, c5optC] []
      = calculateMaxCollateral ⟨2024, 1⟩ [c5optC, c5optA] [] := by
  have hperm : ([c5optA, c5optC] : List OptionRec).Perm [c5optC, c5optA] :=
    List.Perm.swap c5optC c5optA []
  have hd : (sweepEvents (firstOfMonth ⟨2024, 1⟩) (nextMonthStart ⟨2024, 1⟩)
      [c5optA, c5optC] []).Pairwise (fun a b => a.date ≠ b.date) := by
    norm_num +decide [sweepEvents, optionEvents, optionInSweep,
      firstOfMonth, nextMonthStart, Date.before, optionCollateral, c5optA,
      c5optC, List.pairwise_cons, Date.mk.injEq]
  exact ⟨hperm, List.Perm.refl [], hd,
    (claim5_perm_invariance ⟨2024, 1⟩ [c5optA, c5optC] [c5optC, c5optA]
      [] [] hperm (List.Perm.refl []) hd).2.2⟩

/-- C5 counterexample: `c5optA` closes on 2024-01-10 and `c5optB` opens on
2024-01-10; with input order [A, B] the (stable-by-date) event order applies
the close first and the peak is 100, with [B, A] the open is applied first
and the peak is 200 — a permutation of the inputs changes the result. -/
theorem claim5_counterexample :
    ([c5optA, c5optB] : List OptionRec).Perm [c5optB, c5optA] ∧
    calculateMaxCollateral ⟨2024, 1⟩ [c5optA, c5optB] [] = 100 ∧
    calculateMaxCollateral ⟨2024, 1⟩ [c5optB, c5optA] [] = 200 ∧
    (100 : ℚ) ≠ 200 := by
  refine ⟨List.Perm.swap c5optB c5optA [], ?_, ?_, by norm_num⟩ <;>
    norm_num +decide [c5optA, c5optB, calculateMaxCollateral,
      initialCollateral, optionInitialContrib, positionInitialContrib,
      optionInSweep, positionInSweep, firstOfMonth, nextMonthStart,
      Date.before, optionCollateral, positionCollateral, sortEvents,
      sweepEvents, optionEvents, positionEvents, List.insertionSort,
      List.orderedInsert, eventLE, sweepLoop]

/-! ## Claim C3 — month-range filter -/

/-- C3 (amended): a record whose bucketed month key fails the range filter
contributes to none of the aggregation outputs (category month/ticker
series, table, month axis, combined totals, grand total) — removing it
leaves all those fields unchanged — and a key equal to either bound passes
the filter. BUT the collateral and APR series are computed from the
UNFILTERED record lists, so an out-of-range record overlapping an in-range
month does contribute to them (see the counterexample); the claim's
"including the per-month collateral and APR series" fails. -/
theorem claim3_filter (fromM toM : Option YM)
    (opts₁ opts₂ : List OptionRec) (divs₁ divs₂ : List DividendRec)
    (poss₁ poss₂ : List LongPositionRec) (od : OptionRec) (dd : DividendRec)
    (pd : LongPositionRec) (hod : keepYM fromM toM od.ym = false)
    (hdd : keepYM fromM toM dd.ym = false)
    (hpd : ∀ cd, pd.closed = some cd →
      keepYM fromM toM (monthKey cd) = false)
    (f t : YM) (hft : YM.le f t = true) :
    (buildMonthlyData (opts₁ ++ od :: opts₂) (divs₁ ++ dd :: divs₂)
        (poss₁ ++ pd :: poss₂) fromM toM).putsByMonth
      = (buildMonthlyData (opts₁ ++ opts₂) (divs₁ ++ divs₂)
          (poss₁ ++ poss₂) fromM toM).putsByMonth ∧
    (buildMonthlyData (opts₁ ++ od :: opts₂) (divs₁ ++ dd :: divs₂)
        (poss₁ ++ pd :: poss₂) fromM toM).callsByMonth
      = (buildMonthlyData (opts₁ ++ opts₂) (divs₁ ++ divs₂)
          (poss₁ ++ poss₂) fromM toM).callsByMonth ∧
    (buildMonthlyData (opts₁ ++ od :: opts₂) (divs₁ ++ dd :: divs₂)
        (poss₁ ++ pd :: poss₂) fromM toM).capGainsByMonth
      = (buildMonthlyData (opts₁ ++ opts₂) (divs₁ ++ divs₂)
          (poss₁ ++ poss₂) fromM toM).capGainsByMonth ∧
    (buildMonthlyData (opts₁ ++ od :: opts₂) (divs₁ ++ dd :: divs₂)
        (poss₁ ++ pd :: poss₂) fromM toM).dividendsByMonth
      = (buildMonthlyData (opts₁ ++ opts₂) (divs₁ ++ divs₂)
          (poss₁ ++ poss₂) fromM toM).dividendsByMonth ∧
    (buildMonthlyData (opts₁ ++ od :: opts₂) (divs₁ ++ dd :: divs₂)
        (poss₁ ++ pd :: poss₂) fromM toM).putsTickerChart
      = (buildMonthlyData (opts₁ ++ opts₂) (divs₁ ++ divs₂)
          (poss₁ ++ poss₂) fromM toM).putsTickerChart ∧
    (buildMonthlyData (opts₁ ++ od :: opts₂) (divs₁ ++ dd :: divs₂)
        (poss₁ ++ pd :: poss₂) fromM toM).callsTickerChart
      = (buildMonthlyData (opts₁ ++ opts₂) (divs₁ ++ divs₂)
          (poss₁ ++ poss₂) fromM toM).callsTickerChart ∧
    (buildMonthlyData (opts₁ ++ od :: opts₂) (divs₁ ++ dd :: divs₂)
        (poss₁ ++ pd :: poss₂) fromM toM).capGainsTickerChart
      = (buildMonthlyData (opts₁ ++ opts₂) (divs₁ ++ divs₂)
          (poss₁ ++ poss₂) fromM toM).capGainsTickerChart ∧
    (buildMonthlyData (opts₁ ++ od :: opts₂) (divs₁ ++ dd :: divs₂)
        (poss₁ ++ pd :: poss₂) fromM toM).dividendsTickerChart
      = (buildMonthlyData (opts₁ ++ opts₂) (divs₁ ++ divs₂)
          (poss₁ ++ poss₂) fromM toM).dividendsTickerChart ∧
    (buildMonthlyData (opts₁ ++ od :: opts₂) (divs₁ ++ dd :: divs₂)
        (poss₁ ++ pd :: poss₂) fromM toM).tableData
      = (buildMonthlyData (opts₁ ++ opts₂) (divs₁ ++ divs₂)
          (poss₁ ++ poss₂) fromM toM).tableData ∧
    (buildMonthlyData (opts₁ ++ od :: opts₂) (divs₁ ++ dd :: divs₂)
        (poss₁ ++ pd :: poss₂) fromM toM).tableYearMonths
      = (buildMonthlyData (opts₁ ++ opts₂) (divs₁ ++ divs₂)
          (poss₁ ++ poss₂) fromM toM).tableYearMonths ∧
    (buildMonthlyData (opts₁ ++ od :: opts₂) (divs₁ ++ dd :: divs₂)
        (poss₁ ++ pd :: poss₂) fromM toM).totalsByMonth
      = (buildMonthlyData (opts₁ ++ opts₂) (divs₁ ++ divs₂)
          (poss₁ ++ poss₂) fromM toM).totalsByMonth ∧
    (buildMonthlyData (opts₁ ++ od :: opts₂) (divs₁ ++ dd :: divs₂)
        (poss₁ ++ pd :: poss₂) fromM toM).grandTotal
      = (buildMonthlyData (opts₁ ++ opts₂) (divs₁ ++ divs₂)
          (poss₁ ++ poss₂) fromM toM).grandTotal ∧
    keepYM (some f) (some t) f = true ∧
    keepYM (some f) (some t) t = true := by
  have h1 : filtOptions fromM toM (opts₁ ++ od :: opts₂)
      = filtOptions fromM toM (opts₁ ++ opts₂) := by
    simp [filtOptions, List.filter_append, List.filter_cons, hod]
  have h2 : filtDividends fromM toM (divs₁ ++ dd :: divs₂)
      = filtDividends fromM toM (divs₁ ++ divs₂) := by
    simp [filtDividends, List.filter_append, List.filter_cons, hdd]
  have hpfalse : (match pd.closed with
      | none => false
      | some cd => keepYM fromM toM (monthKey cd)) = false := by
    cases hc : pd.closed with
    | none => rfl
    | some cd => exact hpd cd hc
  have h3 : filtClosedPositions fromM toM (poss₁ ++ pd :: poss₂)
      = filtClosedPositions fromM toM (poss₁ ++ poss₂) := by
    simp [filtClosedPositions, List.filter_append, List.filter_cons,
      hpfalse]
  have hbf : keepYM (some f) (some t) f = true := by
    simp [keepYM, YM.lt_irrefl, YM.not_lt_of_le hft]
  have hbt : keepYM (some f) (some t) t = true := by
    simp [keepYM, YM.lt_irrefl, YM.not_lt_of_le hft]
  simp only [buildMonthlyData, h1, h2, h3, eq_self_iff_true, true_and]
  exact ⟨hbf, hbt⟩

/-- Witness for C3 at concrete out-of-window records and bounds. -/
theorem claim3_filter_witness :
    keepYM (some ⟨2024, 1⟩) (some ⟨2024, 12⟩) c3oldPut.ym = false ∧
    keepYM (some ⟨2024, 1⟩) (some ⟨2024, 12⟩) c3oldDividend.ym = false ∧
    (∀ cd, c3oldPosition.closed = some cd →
      keepYM (some ⟨2024, 1⟩) (some ⟨2024, 12⟩) (monthKey cd) = false) ∧
    YM.le ⟨2024, 1⟩ ⟨2024, 12⟩ = true ∧
    (buildMonthlyData ([] ++ c3oldPut :: []) ([] ++ c3oldDividend :: [])
        ([] ++ c3oldPosition :: []) (some ⟨2024, 1⟩)
        (some ⟨2024, 12⟩)).grandTotal
      = (buildMonthlyData ([] ++ []) ([] ++ []) ([] ++ [])
          (some ⟨2024, 1⟩) (some ⟨2024, 12⟩)).grandTotal ∧
    keepYM (some ⟨2024, 1⟩) (some ⟨2024, 12⟩) ⟨2024, 1⟩ = true ∧
    keepYM (some ⟨2024, 1⟩) (some ⟨2024, 12⟩) ⟨2024, 12⟩ = true := by
  have hod : keepYM (some ⟨2024, 1⟩) (some ⟨2024, 12⟩) c3oldPut.ym
      = false := by decide
  have hdd : keepYM (some ⟨2024, 1⟩) (some ⟨2024, 12⟩) c3oldDividend.ym
      = false := by decide
  have hpd : ∀ cd, c3oldPosition.closed = some cd →
      keepYM (some ⟨2024, 1⟩) (some ⟨2024, 12⟩) (monthKey cd) = false := by
    intro cd hcd
    simp only [c3oldPosition, Option.some.injEq] at hcd
    rw [← hcd]
    decide
  have hft : YM.le (⟨2024, 1⟩ : YM) ⟨2024, 12⟩ = true := by decide
  have h := claim3_filter (some ⟨2024, 1⟩) (some ⟨2024, 12⟩) [] [] [] []
    [] [] c3oldPut c3oldDividend c3oldPosition hod hdd hpd
    ⟨2024, 1⟩ ⟨2024, 12⟩ hft
  exact ⟨hod, hdd, hpd, hft, h.2.2.2.2.2.2.2.2.2.2.2.1,
    h.2.2.2.2.2.2.2.2.2.2.2.2.1, h.2.2.2.2.2.2.2.2.2.2.2.2.2⟩

/-- C3 counterexample: a put opened 2023-05 (bucketed month key strictly
below `fromMonth = 2024-01`) and still open contributes 10000 to the
collateral series entry of 2024-01 — the collateral/APR series are computed
from the unfiltered inputs. -/
theorem claim3_counterexample :
    YM.lt c3oldPut.ym ⟨2024, 1⟩ = true ∧
    (buildMonthlyData [c3oldPut] [c3dividend] [] (some ⟨2024, 1⟩)
        (some ⟨2024, 12⟩)).collateralByMonth = [⟨⟨2024, 1⟩, 10000⟩] ∧
    (buildMonthlyData [] [c3dividend] [] (some ⟨2024, 1⟩)
        (some ⟨2024, 12⟩)).collateralByMonth = [⟨⟨2024, 1⟩, 0⟩] := by
  refine ⟨by decide, ?_, ?_⟩ <;>
    norm_num +decide [c3oldPut, c3dividend, buildMonthlyData, filtOptions,
      filtDividends, filtClosedPositions, keepYM, YM.lt, OptionRec.ym,
      DividendRec.ym, LongPositionRec.cym, monthKey, yearMonths,
      monthKeysList, ymLE, List.insertionSort, List.orderedInsert,
      putsByYearMonth, callsByYearMonth, capGainsByYearMonth,
      dividendsByYearMonth, tickersList, tickerMonths, tickerMonthCell,
      rowTotal, grandTotalOf, positionProfit, aprValue,
      calculateMaxCollateral, initialCollateral, optionInitialContrib,
      positionInitialContrib, optionInSweep, positionInSweep, firstOfMonth,
      nextMonthStart, Date.before, optionCollateral, positionCollateral,
      sortEvents, sweepEvents, optionEvents, positionEvents, eventLE,
      sweepLoop, List.filter_cons, List.filter_nil, List.dedup]

end Stonks
